import Mathlib

/-!
# Verification of the unit-of-work persistence engine (SubjectOperationExecutor)

A shallow embedding of `src/persistence/SubjectOperationExecutor.ts` together with the
closure-table primitive of `src/driver/websql/WebsqlQueryRunner.ts`.

Modelling conventions:
* JavaScript values are modelled by `Value` (with `undefined`, `null`, numbers, strings,
  dates as abstract integer timestamps, object references and arrays of object
  references); JS truthiness is `Value.truthy`.
* Entities are identified by a numeric reference (`===` between entities is reference
  equality); the heap of entity property maps is `Store`.
* The executor's effectful methods become computations in the monad `M`, an explicit
  state-and-exceptions monad over `ExecState`.  Every collaborator call (query runner,
  broadcaster, provider) is recorded in a trace of `Op`s.  `Promise.all` over a list of
  operations on one shared connection is modelled as sequential issue in list order
  (the spec's "concurrency" is interleaving on one connection, not parallelism).
* External collaborators (query runner results, driver value preparation, clock) are an
  environment `Env`; the k-th collaborator call can be made to reject via `Env.failsAt`.
* The closure-table statement is interpreted by the Websql query runner's actual
  algorithm (`websqlInsertIntoClosureTable`), translated from the source SQL.
-/

namespace Typeorm

/-- JavaScript runtime values as used by the persistence engine. -/
inductive Value where
  | undefined
  | null
  | num (n : Int)
  | str (s : String)
  | date (t : Nat)
  | obj (e : Nat)
  | arr (es : List Nat)
  deriving DecidableEq, Repr

/-- JS truthiness: `undefined`, `null`, `0` and `""` are falsy. -/
def Value.truthy : Value → Bool
  | .undefined => false
  | .null => false
  | .num n => n != 0
  | .str s => s != ""
  | .date _ => true
  | .obj _ => true
  | .arr _ => true

/-- JS `a || b`. -/
def Value.orElse (a b : Value) : Value := if a.truthy then a else b

/-- Numeric reading of a value (used where the source does SQL/JS arithmetic). -/
def Value.toInt : Value → Int
  | .num n => n
  | _ => 0

/-- JS `x + 1` on a column value (version increment); non-numeric input is
left abstract as `undefined` (the claims never exercise it). -/
def Value.plusOne : Value → Value
  | .num n => .num (n + 1)
  | _ => .undefined

/-- Second-level referenced column (`referencedColumn.referencedColumn` in the source
is only ever asked for `isGenerated`). -/
structure ColumnRef where
  isGenerated : Bool := false
  deriving DecidableEq, Repr

/-- Column metadata (the fields of `ColumnMetadata` the executor reads). -/
structure ColumnMeta where
  fullName : String
  propertyName : String
  isVirtual : Bool := false
  isParentId : Bool := false
  isDiscriminator : Bool := false
  isGenerated : Bool := false
  isObjectId : Bool := false
  isCreateDate : Bool := false
  isUpdateDate : Bool := false
  isVersion : Bool := false
  isNullable : Bool := true
  entityTarget : Option String := none
  referencedColumn : Option ColumnRef := none
  deriving DecidableEq, Repr

/-- `JoinColumnMetadata`: the foreign-key column and the column it references. -/
structure JoinColumnMeta where
  name : String := ""
  referencedColumn : ColumnMeta
  deriving DecidableEq, Repr

/-- `JoinTableMetadata` of a many-to-many relation. -/
structure JoinTableMeta where
  referencedColumn : ColumnMeta
  inverseReferencedColumn : ColumnMeta
  deriving DecidableEq, Repr

/-- The fields of a relation's inverse relation that the executor reads
(stored flat to avoid mutual recursion between relation metadata records). -/
structure InverseRelationInfo where
  propertyName : String := ""
  target : String := ""
  joinColumnName : String := ""
  joinColumnReferencedColumn : Option ColumnMeta := none
  joinTable : Option JoinTableMeta := none
  deriving DecidableEq, Repr

/-- The junction-table entity metadata of a many-to-many relation
(junction tables have no embeddeds, so one column list serves both
`columns` and `columnsWithoutEmbeddeds`). -/
structure JunctionMeta where
  tableName : String
  columns : List ColumnMeta
  deriving DecidableEq, Repr

/-- Relation metadata (the fields of `RelationMetadata` the executor reads).
Entity-metadata references are by target name, resolved through the
environment's metadata registry (the source's `connection.getMetadata`). -/
structure RelationMeta where
  name : String
  propertyName : String
  target : String := ""
  inverseTarget : String := ""
  joinColumn : Option JoinColumnMeta := none
  hasInverseSide : Bool := false
  inverseRelation : Option InverseRelationInfo := none
  isOwning : Bool := false
  isManyToManyOwner : Bool := false
  isManyToManyNotOwner : Bool := false
  isNullable : Bool := true
  joinTable : Option JoinTableMeta := none
  junctionMeta : Option JunctionMeta := none
  deriving DecidableEq, Repr

/-- Embedded (nested value object) metadata; recursive as in the source. -/
inductive EmbeddedMeta where
  | mk (propertyName : String) (isArray : Bool) (columns : List ColumnMeta)
       (embeddeds : List EmbeddedMeta)
  deriving Repr

def EmbeddedMeta.propertyName : EmbeddedMeta → String
  | .mk p _ _ _ => p

/-- Entity metadata: tables, columns, relations, inheritance and tree shape.
Optional special columns double as the source's `hasXColumn` flags. -/
structure EntityMeta where
  target : String := ""
  tableName : String := ""
  isClassTableChild : Bool := false
  isClosure : Bool := false
  columnsWithoutEmbeddeds : List ColumnMeta := []
  embeddeds : List EmbeddedMeta := []
  relationsWithJoinColumns : List RelationMeta := []
  relations : List RelationMeta := []
  oneToManyRelations : List RelationMeta := []
  oneToOneRelations : List RelationMeta := []
  primaryColumns : List ColumnMeta := []
  parentPrimaryColumns : List ColumnMeta := []
  primaryColumnsWithParentIdColumns : List ColumnMeta := []
  parentEntityTarget : Option String := none
  generatedColumn : Option ColumnMeta := none
  objectIdColumn : Option ColumnMeta := none
  createDateColumn : Option ColumnMeta := none
  updateDateColumn : Option ColumnMeta := none
  versionColumn : Option ColumnMeta := none
  discriminatorColumn : Option ColumnMeta := none
  discriminatorValue : Value := .undefined
  treeLevelColumn : Option ColumnMeta := none
  treeParentRelation : Option RelationMeta := none
  treeChildrenRelation : Option RelationMeta := none
  parentIdColumn : Option ColumnMeta := none
  closureJunctionTableName : String := ""

def ColumnMeta.default0 : ColumnMeta := { fullName := "", propertyName := "" }

/-- `metadata.firstPrimaryColumn`. -/
def EntityMeta.firstPrimaryColumn (m : EntityMeta) : ColumnMeta :=
  m.primaryColumns.headD ColumnMeta.default0

/-- Modelled from the spec: `EntityMetadata.hasNonNullableColumns`
(`EntityMetadata.ts` is not among the sources).  Per spec section 4.3, bucket A holds
"subjects whose metadata has no non-nullable foreign-key column", so the flag is true
iff some foreign-key (join) column of the metadata is non-nullable. -/
def EntityMeta.hasNonNullableColumns (m : EntityMeta) : Bool :=
  m.relationsWithJoinColumns.any (fun r => !r.isNullable)

/-- A pending many-to-many link addition (`JunctionInsert` of `Subject.ts`). -/
structure JunctionInsert where
  relation : RelationMeta
  junctionEntities : List Nat

/-- A pending many-to-many link removal (`JunctionRemove` of `Subject.ts`). -/
structure JunctionRemove where
  relation : RelationMeta
  junctionRelationIds : List Value

/-- A bare relation pointer re-assignment (`Subject.relationUpdates` element). -/
structure RelationUpdate where
  relation : RelationMeta
  value : Value

/-- The per-entity change descriptor (`Subject.ts` data; the post-insert generated
values live in the mutable execution state, keyed by `sid`). -/
structure Subject where
  sid : Nat
  entity : Option Nat := none
  databaseEntity : Option Nat := none
  metadata : EntityMeta := {}
  mustBeInserted : Bool := false
  mustBeUpdated : Bool := false
  mustBeRemoved : Bool := false
  hasRelationUpdates : Bool := false
  diffColumns : List ColumnMeta := []
  diffRelations : List RelationMeta := []
  relationUpdates : List RelationUpdate := []
  junctionInserts : List JunctionInsert := []
  junctionRemoves : List JunctionRemove := []
  date : Nat := 0

def Subject.hasEntity (s : Subject) : Bool := s.entity.isSome

/-- The entity reference of a subject (insert/update subjects always carry one). -/
def Subject.entityId (s : Subject) : Nat := s.entity.getD 0

/-- The database-snapshot reference of a subject. -/
def Subject.dbEntityId (s : Subject) : Nat := s.databaseEntity.getD 0

/-- Reference equality between a subject's entity and a JS value
(the source's `insertedSubject.entity === x`). -/
def entityEq (o : Option Nat) (v : Value) : Bool :=
  match o, v with
  | some e, .obj x => e == x
  | _, _ => false

/-- Errors surfaced by the engine. -/
inductive Err where
  | validation (sid : Nat)
  | queryFailed (k : Nat)
  | cascadeOwn (target : String)
  | cascadeEntity (e : Nat)
  | internalNoId
  | typeError
  deriving DecidableEq, Repr

/-- The trace of collaborator calls issued by one `execute` run. -/
inductive Op where
  | provide
  | isTransactionActive
  | beginTransaction
  | commitTransaction
  | rollbackTransaction
  | broadcastBeforeAll
  | broadcastAfterAll
  | insertQ (table : String) (values : List (String × Value))
  | updateQ (table : String) (values : List (String × Value)) (conditions : List (String × Value))
  | deleteQ (table : String) (conditions : List (String × Value))
  | closureQ (table : String) (newId : Value) (parentId : Value) (hasLevel : Bool)
  deriving DecidableEq, Repr

/-- Whether an op is one of the primitive data statements (insert/update/delete/closure). -/
def Op.isQuery : Op → Bool
  | .insertQ _ _ => true
  | .updateQ _ _ _ => true
  | .deleteQ _ _ => true
  | .closureQ _ _ _ _ => true
  | _ => false

/-- One (ancestor, descendant, level) row of a closure table. -/
structure ClosureRow where
  ancestor : Int
  descendant : Int
  level : Int
  deriving DecidableEq, Repr

/-- The heap of entity property maps, by entity reference. -/
def Store := Nat → List (String × Value)

/-- JS object read (`m[k]`, as `Option`). -/
def objGet (m : List (String × Value)) (k : String) : Option Value :=
  (m.find? (fun p => p.1 == k)).map (fun p => p.2)

/-- JS object write `m[k] = v`: overwrite in place, else append. -/
def objSet (m : List (String × Value)) (k : String) (v : Value) : List (String × Value) :=
  if m.any (fun p => p.1 == k) then
    m.map (fun p => if p.1 == k then (k, v) else p)
  else m ++ [(k, v)]

/-- Property read on an entity reference (`entity[prop]`). -/
def getProp (store : Store) (e : Nat) (k : String) : Value :=
  (objGet (store e) k).getD .undefined

/-- Property read through a value (`v[prop]`; non-objects yield `undefined`). -/
def getPropV (store : Store) (v : Value) (k : String) : Value :=
  match v with
  | .obj e => getProp store e k
  | _ => .undefined

/-- Property write on an entity reference (`entity[prop] = v`). -/
def setProp (store : Store) (e : Nat) (k : String) (v : Value) : Store :=
  fun x => if x == e then objSet (store e) k v else store x

/-- The mutable post-insert fields of a subject (`newlyGeneratedId` etc.,
write-once per execution in the source). -/
structure SubjMut where
  newlyGeneratedId : Value := .undefined
  generatedObjectId : Value := .undefined
  parentGeneratedId : Value := .undefined
  treeLevel : Value := .undefined

/-- External collaborators: the metadata registry, the query runner's pre-existing
transaction state, the generated id each runner call returns, failure injection per
call index, the clock read by `new Date()`, and the driver's value-preparation hook. -/
structure Env where
  metas : List (String × EntityMeta) := []
  transactionActive : Bool := false
  insertResult : Nat → Value := fun _ => .undefined
  failsAt : Nat → Bool := fun _ => false
  now : Nat := 0
  prepare : Value → ColumnMeta → Value := fun v _ => v

/-- `connection.getMetadata(target)` (missing targets yield empty metadata;
the source would crash, the claims only use registered targets). -/
def getMetaD (env : Env) (t : String) : EntityMeta :=
  (((env.metas.find? (fun p => p.1 == t)).map (fun p => p.2)).getD {})

/-- The execution state of one `execute` call. -/
structure ExecState where
  env : Env
  store : Store
  muts : Nat → SubjMut := fun _ => {}
  calls : List Op := []
  counter : Nat := 0
  closure : List ClosureRow := []
  txnOwner : Bool := false

/-- The effect monad: explicit state plus exceptions. -/
def M (α : Type) : Type := ExecState → Except Err α × ExecState

instance : Monad M where
  pure a := fun st => (.ok a, st)
  bind x f := fun st =>
    match x st with
    | (.ok a, st') => f a st'
    | (.error e, st') => (.error e, st')

/-- Throw (JS `throw`). -/
def mthrow {α : Type} (e : Err) : M α := fun st => (.error e, st)

/-- Try/catch (JS `try ... catch`). -/
def mtry {α : Type} (x : M α) (h : Err → M α) : M α := fun st =>
  match x st with
  | (.ok a, st') => (.ok a, st')
  | (.error e, st') => h e st'

def getState : M ExecState := fun st => (.ok st, st)

def modifyState (f : ExecState → ExecState) : M Unit := fun st => (.ok (), f st)

/-- Discard a result (`await` of a value-returning call in statement position). -/
def mvoid {α : Type} (x : M α) : M Unit := x >>= fun _ => pure ()

/-- Sequential iteration (the model of `Promise.all(list.map(f))` and of
`forEach`-with-awaited-promises on one shared connection: operations are
issued in list order). -/
def mforM {α : Type} : List α → (α → M Unit) → M Unit
  | [], _ => pure ()
  | a :: as, f => f a >>= fun _ => mforM as f

/-- Update one subject's mutable fields. -/
def setMut (st : ExecState) (sid : Nat) (f : SubjMut → SubjMut) : ExecState :=
  { st with muts := fun i => if i == sid then f (st.muts i) else st.muts i }

/-- Issue one collaborator call: record it in the trace, consume a call index, and
either reject (per the environment's failure injection) or return the environment's
result for that index. -/
def callOp (op : Op) : M Value := fun st =>
  let k := st.counter
  let st' := { st with counter := k + 1, calls := st.calls ++ [op] }
  if st.env.failsAt k then (.error (.queryFailed k), st')
  else (.ok (st.env.insertResult k), st')

/-- `MAX(...)` over a list: `none` on the empty list (SQL NULL). -/
def listMaxOpt (l : List Int) : Option Int :=
  l.foldl (fun acc x =>
    match acc with
    | none => some x
    | some m => some (max m x)) none

/-- The levels of every closure row with the given descendant. -/
def closureLevels (rows : List ClosureRow) (d : Int) : List Int :=
  (rows.filter (fun r => r.descendant == d)).map (fun r => r.level)

/-- `WebsqlQueryRunner.insertIntoClosureTable` (lines 240-257 of
`WebsqlQueryRunner.ts`), as a pure function on the closure table: insert a copy of
every row whose descendant is the parent with the descendant rewritten to the new id
(level + 1 when levels are tracked) plus the new id's self-referencing row (level 1),
then return `MAX(level) + 1` over rows whose descendant is the parent id, or 1 when
that maximum is absent or zero (JS falsiness of the `SELECT MAX` result). -/
def websqlInsertIntoClosureTable (table : List ClosureRow) (newId parentId : Int)
    (hasLevel : Bool) : List ClosureRow × Int :=
  let copied := (table.filter (fun r => r.descendant == parentId)).map
    (fun r => { ancestor := r.ancestor, descendant := newId,
                level := if hasLevel then r.level + 1 else r.level : ClosureRow })
  let table' := table ++ copied ++
    [{ ancestor := newId, descendant := newId, level := if hasLevel then 1 else 0 }]
  let res := match listMaxOpt (closureLevels table' parentId) with
    | none => (1 : Int)
    | some m => if m == 0 then 1 else m + 1
  (table', res)

/-- Issue the closure-table statement: recorded and failable like every runner call,
and interpreted against the in-state closure table by the Websql algorithm. -/
def callClosureOp (table : String) (newId parentId : Value) (hasLevel : Bool) : M Value :=
  fun st =>
    let k := st.counter
    let op : Op := .closureQ table newId parentId hasLevel
    if st.env.failsAt k then
      (.error (.queryFailed k), { st with counter := k + 1, calls := st.calls ++ [op] })
    else
      let r := websqlInsertIntoClosureTable st.closure newId.toInt parentId.toInt hasLevel
      (.ok (.num r.2),
       { st with counter := k + 1, calls := st.calls ++ [op], closure := r.1 })

/-- Modelled from the spec: `RelationMetadata.getInverseEntityRelationId`
(`RelationMetadata.ts` is not among the sources).  Spec section 4.3 resolution step (a):
"an explicit foreign-key value already present in the loaded related entity" — read the
related entity's value of the join column's referenced column. -/
def RelationMeta.getInverseEntityRelationId (r : RelationMeta) (store : Store)
    (value : Value) : Value :=
  match r.joinColumn with
  | some jc => getPropV store value jc.referencedColumn.propertyName
  | none => .undefined

/-- `entity[relation.propertyName]` (the source's `relation.getEntityValue(entity)`). -/
def RelationMeta.getEntityValue (r : RelationMeta) (store : Store) (e : Nat) : Value :=
  getProp store e r.propertyName

/-- The own-side referenced column of a many-to-many relation: the join table's
`referencedColumn` for the owning side, the inverse relation's join table's
`inverseReferencedColumn` otherwise (as `insertJunctions` selects `firstColumn`). -/
def RelationMeta.ownReferencedColumn (r : RelationMeta) : Option ColumnMeta :=
  if r.isOwning then (r.joinTable.map (fun jt => jt.referencedColumn)).orElse
    (fun _ => r.joinColumn.map (fun jc => jc.referencedColumn))
  else (r.inverseRelation.bind (fun inv => inv.joinTable)).map
    (fun jt => jt.inverseReferencedColumn)

/-- Modelled from the spec: `RelationMetadata.getOwnEntityRelationId`
(`RelationMetadata.ts` is not among the sources).  Spec section 4.6: resolve the "own"
id "from the entity's own relation-id accessor" — read the entity's value of the
relation's own-side referenced column. -/
def RelationMeta.getOwnEntityRelationId (r : RelationMeta) (store : Store) (e : Nat) :
    Value :=
  match r.ownReferencedColumn with
  | some c => getProp store e c.propertyName
  | none => .undefined

/-- Modelled from the spec: `EntityMetadata.extractRelationValuesFromEntity`
(`EntityMetadata.ts` is not among the sources).  Flattens each listed relation's value
on the entity into (relation, related entity) pairs, one pair per element for array
values (spec section 4.3: updates "the inverse side of non-owning one-to-many/one-to-one
relations"). -/
def extractRelationValuesFromEntity (store : Store) (e : Nat)
    (relations : List RelationMeta) : List (RelationMeta × Nat) :=
  relations.flatMap (fun r =>
    match getProp store e r.propertyName with
    | .obj x => [(r, x)]
    | .arr xs => xs.map (fun x => (r, x))
    | _ => [])

/-- Modelled from the spec: `EntityMetadata.getDatabaseEntityIdMap`
(`EntityMetadata.ts` is not among the sources).  Spec section 4.7: the WHERE clause is
"that table's primary-key identity map derived from the entity"; resolution fails
(`undefined`) when the key values are not derivable. -/
def EntityMeta.getDatabaseEntityIdMap (m : EntityMeta) (store : Store) (e : Nat) :
    Option (List (String × Value)) :=
  let cols := if m.parentEntityTarget.isSome then m.primaryColumnsWithParentIdColumns
              else m.primaryColumns
  let pairs := cols.map (fun c => (c.fullName, getProp store e c.propertyName))
  if pairs.all (fun p => p.2.truthy) && !pairs.isEmpty then some pairs else none

/-- Modelled from the spec: `EntityMetadata.getEntityIdColumnMap`
(`EntityMetadata.ts` is not among the sources).  Spec section 4.9: an ordinary remove
"uses the entity's identity-column map derived from the database snapshot". -/
def EntityMeta.getEntityIdColumnMap (m : EntityMeta) (store : Store) (e : Nat) :
    Option (List (String × Value)) :=
  let pairs := m.primaryColumns.map (fun c => (c.fullName, getProp store e c.propertyName))
  if pairs.all (fun p => p.2.truthy) && !pairs.isEmpty then some pairs else none

/-- Modelled from the spec: `Subject.validate` (`Subject.ts` is not among the sources).
Spec sections 4.1 and 3: a subject must carry an identifiable entity (or snapshot)
appropriate to its classification; a remove subject with neither snapshot nor entity is
a fatal validation error, raised synchronously before any I/O. -/
def Subject.validate (s : Subject) : Except Err Unit :=
  if s.mustBeInserted && !s.hasEntity then .error (.validation s.sid)
  else if s.mustBeUpdated && !s.hasEntity then .error (.validation s.sid)
  else if s.mustBeRemoved && !s.hasEntity && !s.databaseEntity.isSome then
    .error (.validation s.sid)
  else .ok ()

def validateAll : List Subject → Except Err Unit
  | [] => .ok ()
  | s :: rest =>
    match s.validate with
    | .ok _ => validateAll rest
    | .error e => .error e

mutual

/-- The inner `collectFromEmbeddeds` helper of `collectColumnsAndValues` (lines 465-494):
flatten (possibly nested) embedded value objects into (column, prepared value) pairs.
For an array embedded, one pair per element per column; the source then recurses with
the array itself as "entity", whose property reads all yield `undefined`, so the
recursion contributes nothing — reproduced here by recursing through `getPropV`. -/
def collectFromEmbedded1 (env : Env) (store : Store) (entityVal : Value) :
    EmbeddedMeta → List (String × Value)
  | .mk propertyName isArray columns embeddeds =>
    let v := getPropV store entityVal propertyName
    if !v.truthy then []
    else
      (if isArray then
        match v with
        | .arr subs => subs.flatMap (fun sub =>
            columns.map (fun c =>
              (c.fullName, env.prepare (getProp store sub c.propertyName) c)))
        | _ => []
      else
        columns.map (fun c =>
          (c.fullName, env.prepare (getPropV store v c.propertyName) c)))
      ++ collectFromEmbeddeds env store v embeddeds

def collectFromEmbeddeds (env : Env) (store : Store) (entityVal : Value) :
    List EmbeddedMeta → List (String × Value)
  | [] => []
  | em :: rest =>
    collectFromEmbInt env store entityVal em ++ collectFromEmbeddeds env store entityVal rest

def collectFromEmbInt (env : Env) (store : Store) (entityVal : Value)
    (em : EmbeddedMeta) : List (String × Value) :=
  collectFromEmbedded1 env store entityVal em

end

/-- The relation-column value resolution of `collectColumnsAndValues` (lines 496-551):
(a) the explicit id on the loaded related entity, else (b) the special generated values
of a subject from the already-inserted set, else (c) for relations with an inverse side,
scan all subjects for one pointing back at this entity.  The JS variable
`relationValue` is threaded through the chain of `if`s exactly as in the source. -/
def collectRelationValue (env : Env) (store : Store) (muts : Nat → SubjMut)
    (allSubjects : List Subject) (alreadyInsertedSubjects : List Subject)
    (entity : Nat) (relation : RelationMeta) : Value :=
  match relation.joinColumn with
  | none => .undefined
  | some jc =>
    let value := relation.getEntityValue store entity
    if value.truthy then
      let relationId := relation.getInverseEntityRelationId store value
      let rv0 := if relationId.truthy then relationId else .undefined
      match alreadyInsertedSubjects.find? (fun isub => entityEq isub.entity value) with
      | some ais =>
        let referencedColumn := jc.referencedColumn
        let rv1 := if (match referencedColumn.referencedColumn with
                       | some rr => rr.isGenerated
                       | none => false) && referencedColumn.isParentId
                   then (muts ais.sid).parentGeneratedId else rv0
        let rv2 := if referencedColumn.isGenerated then (muts ais.sid).newlyGeneratedId
                   else rv1
        let rv3 := if referencedColumn.isObjectId then (muts ais.sid).generatedObjectId
                   else rv2
        let rv4 := if referencedColumn.isCreateDate || referencedColumn.isUpdateDate
                   then env.prepare (.date ais.date) referencedColumn else rv3
        if referencedColumn.isVersion then env.prepare (.num 1) referencedColumn else rv4
      | none => rv0
    else if relation.hasInverseSide then
      match relation.inverseRelation with
      | none => .undefined
      | some inv =>
        match allSubjects.find? (fun subj =>
            subj.hasEntity && subj.metadata.target == inv.target &&
            (match getProp store subj.entityId inv.propertyName with
             -- the source's array branch tests `subValue === subValue`, which holds of
             -- every element, so an array value matches exactly when it is non-empty
             | .arr xs => !xs.isEmpty
             | .obj x => x == entity
             | _ => false)) with
        | some inverseSubject =>
          let v := getProp store inverseSubject.entityId jc.referencedColumn.propertyName
          if v.truthy then v else .undefined
        | none => .undefined
    else .undefined

/-- `collectColumnsAndValues` (lines 448-607): scalar columns with a present value,
flattened embeddeds, resolved relation columns, then the special columns
(create/update date from the subject's captured `date`, version 1, discriminator,
tree level = parent's level + 1, parent id).  The result is the source's
`OrmUtils.zipObject(columnNames, columnValues)` kept as an ordered pair list. -/
def collectColumnsAndValues (env : Env) (store : Store) (muts : Nat → SubjMut)
    (allSubjects : List Subject) (metadata : EntityMeta) (entity : Nat) (date : Nat)
    (parentIdColumnValue : Value) (discriminatorValue : Value)
    (alreadyInsertedSubjects : List Subject) : List (String × Value) :=
  let scalars := (metadata.columnsWithoutEmbeddeds.filter (fun c =>
      !c.isVirtual && !c.isParentId && !c.isDiscriminator &&
      -- `column.hasEntityValue(entity)`: the entity carries a value for the column
      getProp store entity c.propertyName != .undefined)).map
    (fun c => (c.fullName, env.prepare (getProp store entity c.propertyName) c))
  let embPairs := collectFromEmbeddeds env store (.obj entity) metadata.embeddeds
  let relPairs := metadata.relationsWithJoinColumns.foldl (fun acc relation =>
    let rv := collectRelationValue env store muts allSubjects alreadyInsertedSubjects
      entity relation
    if rv.truthy then acc ++ [(relation.name, rv)] else acc) []
  let createPairs := match metadata.createDateColumn with
    | some c => [(c.fullName, env.prepare (.date date) c)]
    | none => []
  let updatePairs := match metadata.updateDateColumn with
    | some c => [(c.fullName, env.prepare (.date date) c)]
    | none => []
  let versionPairs := match metadata.versionColumn with
    | some c => [(c.fullName, env.prepare (.num 1) c)]
    | none => []
  let discriminatorPairs := match metadata.discriminatorColumn with
    | some c => [(c.fullName,
        env.prepare (discriminatorValue.orElse metadata.discriminatorValue) c)]
    | none => []
  let treePairs := match metadata.treeLevelColumn, metadata.treeParentRelation with
    | some tl, some tp =>
      let parentEntity := getProp store entity tp.propertyName
      let parentLevel : Int := if parentEntity.truthy
        then (getPropV store parentEntity tl.propertyName).toInt else 0
      [(tl.fullName, .num (parentLevel + 1))]
    | _, _ => []
  let parentIdPairs := match metadata.parentEntityTarget, metadata.parentIdColumn with
    | some pt, some pic =>
      let pmeta := getMetaD env pt
      [(pic.fullName,
        parentIdColumnValue.orElse (getProp store entity pmeta.firstPrimaryColumn.propertyName))]
    | _, _ => []
  scalars ++ embPairs ++ relPairs ++ createPairs ++ updatePairs ++ versionPairs ++
    discriminatorPairs ++ treePairs ++ parentIdPairs

/-- The tail of `insert` (lines 430-442): record the generated ids on the subject. -/
def finishInsert (subject : Subject) (parentGeneratedId newlyGeneratedId : Value) :
    M Unit := do
  if parentGeneratedId.truthy then
    modifyState (fun st => setMut st subject.sid
      (fun m => { m with parentGeneratedId := parentGeneratedId }))
  if newlyGeneratedId.truthy then
    if subject.metadata.generatedColumn.isSome then
      modifyState (fun st => setMut st subject.sid
        (fun m => { m with newlyGeneratedId := newlyGeneratedId }))
    else if subject.metadata.objectIdColumn.isSome then
      modifyState (fun st => setMut st subject.sid
        (fun m => { m with generatedObjectId := newlyGeneratedId }))
    else pure ()
  else pure ()

/-- `insert` (lines 405-443): for a class-table child, first insert into the parent
table (its generated id becomes the authoritative one), then into the child table with
that id as the parent id value, falling back to the child insert's generated id;
otherwise one insert into the entity's own table. -/
def insertSubject (allSubjects : List Subject) (subject : Subject)
    (alreadyInsertedSubjects : List Subject) : M Unit := do
  let st ← getState
  let metadata := subject.metadata
  let entity := subject.entityId
  if metadata.isClassTableChild then
    let pmeta := getMetaD st.env (metadata.parentEntityTarget.getD "")
    let parentValuesMap := collectColumnsAndValues st.env st.store st.muts allSubjects
      pmeta entity subject.date .undefined metadata.discriminatorValue alreadyInsertedSubjects
    let parentGeneratedId ← callOp (.insertQ pmeta.tableName parentValuesMap)
    let st2 ← getState
    let childValuesMap := collectColumnsAndValues st2.env st2.store st2.muts allSubjects
      metadata entity subject.date parentGeneratedId .undefined alreadyInsertedSubjects
    let secondGeneratedId ← callOp (.insertQ metadata.tableName childValuesMap)
    let newlyGeneratedId := if !parentGeneratedId.truthy && secondGeneratedId.truthy
      then secondGeneratedId else parentGeneratedId
    finishInsert subject parentGeneratedId newlyGeneratedId
  else
    let valuesMap := collectColumnsAndValues st.env st.store st.muts allSubjects
      metadata entity subject.date .undefined .undefined alreadyInsertedSubjects
    let newlyGeneratedId ← callOp (.insertQ metadata.tableName valuesMap)
    finishInsert subject .undefined newlyGeneratedId

/-- The per-relation id resolution of the back-patch pass (lines 206-266): for a
bucket-A subject's join-column relation, find the id to write — from the related
entity's referenced-column value, else from the generated id of the related entity's
own insert subject (with the referenced column possibly itself being a relation). -/
def backpatchRelationIdFor (st : ExecState) (insertSubjects : List Subject)
    (entity : Nat) (relation : RelationMeta) : Value :=
  match relation.joinColumn with
  | none => .undefined
  | some jc =>
    let referencedColumn := jc.referencedColumn
    let relatedEntity := relation.getEntityValue st.store entity
    if !relatedEntity.truthy then .undefined
    else
      let invMeta := getMetaD st.env relation.inverseTarget
      match invMeta.relations.find? (fun rel =>
          rel.propertyName == referencedColumn.propertyName) with
      | some columnRelation =>
        -- referenced column is itself a relation
        let inner := getPropV st.store relatedEntity referencedColumn.propertyName
        match insertSubjects.find? (fun isub => entityEq isub.entity inner) with
        | some insertSubj =>
          let relationId := getPropV st.store inner columnRelation.propertyName
          if !relationId.truthy then
            if referencedColumn.isGenerated then (st.muts insertSubj.sid).newlyGeneratedId
            else if referencedColumn.isObjectId then
              (st.muts insertSubj.sid).generatedObjectId
            else relationId
          else relationId
        | none => .undefined
      | none =>
        -- referenced column is a simple non-relational column
        match insertSubjects.find? (fun isub => entityEq isub.entity relatedEntity) with
        | some insertSubj =>
          let relationId := getPropV st.store relatedEntity referencedColumn.propertyName
          if !relationId.truthy then
            if referencedColumn.isGenerated then (st.muts insertSubj.sid).newlyGeneratedId
            else if referencedColumn.isObjectId then
              (st.muts insertSubj.sid).generatedObjectId
            else relationId
          else relationId
        | none => .undefined

/-- The identity-condition builder of the back-patch pass (lines 272-311): for each
identity column of the subject, take the entity's value — resolving through a
relation's referenced column (with generated-id fallback of the referenced entity's
insert subject) when the identity column is itself a relation, and falling back to
this subject's own generated ids when the entity value is absent. -/
def backpatchConditions (st : ExecState) (insertSubjects : List Subject)
    (subject : Subject) : List (String × Value) :=
  let columns := if subject.metadata.parentEntityTarget.isSome
    then subject.metadata.primaryColumnsWithParentIdColumns
    else subject.metadata.primaryColumns
  columns.foldl (fun conds column =>
    let entityValue := getProp st.store subject.entityId column.propertyName
    let columnRelation := subject.metadata.relations.find? (fun r =>
      r.propertyName == column.propertyName)
    let plainBranch : List (String × Value) :=
      if entityValue.truthy then objSet conds column.fullName entityValue
      else if (st.muts subject.sid).newlyGeneratedId.truthy then
        objSet conds column.fullName (st.muts subject.sid).newlyGeneratedId
      else if (st.muts subject.sid).generatedObjectId.truthy then
        objSet conds column.fullName (st.muts subject.sid).generatedObjectId
      else conds
    match columnRelation with
    | some cr =>
      match cr.joinColumn with
      | some jc =>
        if entityValue.truthy then
          let riev0 := getPropV st.store entityValue jc.referencedColumn.propertyName
          let riev := if !riev0.truthy then
              match insertSubjects.find? (fun s => entityEq s.entity entityValue) with
              | some evis =>
                if jc.referencedColumn.isGenerated then (st.muts evis.sid).newlyGeneratedId
                else if jc.referencedColumn.isObjectId then
                  (st.muts evis.sid).generatedObjectId
                else riev0
              | none => riev0
            else riev0
          if riev.truthy then objSet conds column.fullName riev else conds
        else plainBranch
      | none => plainBranch
    | none => plainBranch) []

/-- The first half of the back-patch pass for one bucket-A subject (lines 204-317):
collect the join-column relation ids now known, and if any, update the subject's own
row keyed by the identity conditions (skipped when no condition is derivable). -/
def backpatchJoinColumns (insertSubjects : List Subject) (subject : Subject) :
    M Unit := do
  let st ← getState
  let updateOptions := subject.metadata.relationsWithJoinColumns.foldl
    (fun opts relation =>
      let rid := backpatchRelationIdFor st insertSubjects subject.entityId relation
      if rid.truthy then objSet opts relation.name rid else opts) []
  if updateOptions.length > 0 then
    let conditions := backpatchConditions st insertSubjects subject
    if conditions.length == 0 then pure ()
    else mvoid (callOp (.updateQ subject.metadata.tableName updateOptions conditions))
  else pure ()

/-- The identity-condition builder of the inverse-side back-patch (lines 325-365):
like `backpatchConditions` but over the inverse entity metadata's identity columns of
the related entity, with the fallback taken from the related entity's insert subject. -/
def backpatchInverseConditions (st : ExecState) (insertSubjects : List Subject)
    (invMeta : EntityMeta) (subRelated : Nat) : List (String × Value) :=
  let columns := if invMeta.parentEntityTarget.isSome
    then invMeta.primaryColumnsWithParentIdColumns
    else invMeta.primaryColumns
  columns.foldl (fun conds column =>
    let entityValue := getProp st.store subRelated column.propertyName
    let columnRelation := invMeta.relations.find? (fun r =>
      r.propertyName == column.propertyName)
    let plainBranch : List (String × Value) :=
      let evis := insertSubjects.find? (fun s => entityEq s.entity (.obj subRelated))
      if entityValue.truthy then objSet conds column.fullName entityValue
      else
        match evis with
        | some s =>
          if (st.muts s.sid).newlyGeneratedId.truthy then
            objSet conds column.fullName (st.muts s.sid).newlyGeneratedId
          else if (st.muts s.sid).generatedObjectId.truthy then
            objSet conds column.fullName (st.muts s.sid).generatedObjectId
          else conds
        | none => conds
    match columnRelation with
    | some cr =>
      match cr.joinColumn with
      | some jc =>
        if entityValue.truthy then
          let riev0 := getPropV st.store entityValue jc.referencedColumn.propertyName
          let riev := if !riev0.truthy then
              match insertSubjects.find? (fun s => entityEq s.entity entityValue) with
              | some evis =>
                if jc.referencedColumn.isGenerated then (st.muts evis.sid).newlyGeneratedId
                else if jc.referencedColumn.isObjectId then
                  (st.muts evis.sid).generatedObjectId
                else riev0
              | none => riev0
            else riev0
          if riev.truthy then objSet conds column.fullName riev else conds
        else plainBranch
      | none => plainBranch
    | none => plainBranch) []

/-- The value written by the inverse-side back-patch (lines 369-387): the inverse
relation's join column is set to the subject's referenced-column value, resolved
through a further relation when the referenced column is one (the source's inner
`find` callback shadows `subject`, so each candidate is compared against its own
property — reproduced verbatim), else `entity value || subject.newlyGeneratedId ||
subRelatedEntity.generatedObjectId`. -/
def backpatchInverseOptions (st : ExecState) (insertSubjects : List Subject)
    (subject : Subject) (relation : RelationMeta) (subRelated : Nat) :
    List (String × Value) :=
  match relation.inverseRelation with
  | none => []
  | some inv =>
    match inv.joinColumnReferencedColumn with
    | none => []
    | some referencedColumn =>
      let invMeta := getMetaD st.env relation.inverseTarget
      match invMeta.relations.find? (fun rel =>
          rel.propertyName == referencedColumn.propertyName) with
      | some columnRelation =>
        let base := getPropV st.store
          (getProp st.store subject.entityId referencedColumn.propertyName)
          columnRelation.propertyName
        let id := if !base.truthy then
            match insertSubjects.find? (fun s =>
                entityEq s.entity (getProp st.store s.entityId referencedColumn.propertyName)) with
            | some isub =>
              if (st.muts isub.sid).newlyGeneratedId.truthy then
                (st.muts isub.sid).newlyGeneratedId
              else if (st.muts isub.sid).generatedObjectId.truthy then
                (st.muts isub.sid).generatedObjectId
              else base
            | none => base
          else base
        [(inv.joinColumnName, id)]
      | none =>
        [(inv.joinColumnName,
          ((getProp st.store subject.entityId referencedColumn.propertyName).orElse
            (st.muts subject.sid).newlyGeneratedId).orElse
            (getProp st.store subRelated "generatedObjectId"))]

/-- The second half of the back-patch pass for one bucket-A subject (lines 319-391):
for every one-to-many and non-owning one-to-one relation value, update the inverse
entity's row (keyed by the inverse metadata's identity columns) to point back at the
newly generated id. -/
def backpatchInverse (insertSubjects : List Subject) (subject : Subject) : M Unit := do
  let st ← getState
  let rels := subject.metadata.oneToManyRelations ++
    (subject.metadata.oneToOneRelations.filter (fun r => !r.isOwning))
  let pairs := extractRelationValuesFromEntity st.store subject.entityId rels
  mforM pairs (fun pr => do
    let st ← getState
    let invMeta := getMetaD st.env pr.1.inverseTarget
    let conditions := backpatchInverseConditions st insertSubjects invMeta pr.2
    if conditions.length == 0 then pure ()
    else
      let updateOptions := backpatchInverseOptions st insertSubjects subject pr.1 pr.2
      mvoid (callOp (.updateQ invMeta.tableName updateOptions conditions)))

/-- The whole back-patch pass over the bucket-A subjects (lines 201-395). -/
def backpatchPhase (insertSubjects firstInsertSubjects : List Subject) : M Unit :=
  mforM firstInsertSubjects (fun subject => do
    backpatchJoinColumns insertSubjects subject
    backpatchInverse insertSubjects subject)

/-- `executeInsertOperations` (lines 174-398): split the insert subjects into the
bucket without non-nullable (foreign-key) columns and the bucket with them, insert the
first bucket (with an empty already-inserted set), then — only after the whole first
bucket completed — the second bucket with the first bucket as its already-inserted
set, then run the back-patch pass over the first bucket. -/
def executeInsertOperations (allSubjects insertSubjects : List Subject) : M Unit := do
  let firstInsertSubjects := insertSubjects.filter (fun subject =>
    !subject.metadata.hasNonNullableColumns)
  let secondInsertSubjects := insertSubjects.filter (fun subject =>
    subject.metadata.hasNonNullableColumns)
  mforM firstInsertSubjects (fun subject => insertSubject allSubjects subject [])
  mforM secondInsertSubjects (fun subject =>
    insertSubject allSubjects subject firstInsertSubjects)
  backpatchPhase insertSubjects firstInsertSubjects

/-- The new-entity-id resolution of `insertClosureTableValues` (lines 637-641): the
entity's own referenced-column value, or — when absent and the referenced column is
generated — the insert phase's newly generated id. -/
def closureNewEntityId (st : ExecState) (subject : Subject)
    (referencedColumn : ColumnMeta) : Value :=
  let v := getProp st.store subject.entityId referencedColumn.propertyName
  if !v.truthy && referencedColumn.isGenerated then (st.muts subject.sid).newlyGeneratedId
  else v

/-- The parent-id resolution of `insertClosureTableValues` (lines 643-652): starts at
the JS number `0`; when the entity's tree-parent property is set, it is replaced by the
parent entity's referenced-column value, and — when that is absent and the referenced
column is generated — by the generated id of the parent's insert subject.  The source
dereferences that subject with a non-null assertion, so a missing parent insert
subject is a runtime `TypeError`. -/
def closureParentPrimary (st : ExecState) (insertSubjects : List Subject)
    (referencedColumn : ColumnMeta) (parentEntityV : Value) : Except Err Value :=
  if parentEntityV.truthy then
    let pid := getPropV st.store parentEntityV referencedColumn.propertyName
    if !pid.truthy && referencedColumn.isGenerated then
      match insertSubjects.find? (fun s => entityEq s.entity parentEntityV) with
      | some ps => .ok ((st.muts ps.sid).newlyGeneratedId)
      | none => .error .typeError
    else .ok pid
  else .ok (.num 0)

/-- The `allSubjects.find` loop of the fallback scan (lines 656-662).  The line-657
guards check only the candidate (`allSubject`): it must have an entity, a closure
table and a tree-children relation.  Line 660 then reads
`subject.metadata.treeChildrenRelation.propertyName` — the *current* subject's
relation — without a guard, so the first candidate that passes the guards crashes the
scan with a `TypeError` when the current subject's metadata has no tree-children
relation; when no candidate passes the guards the dereference is never reached. -/
def closureScanFind (st : ExecState) (subject : Subject) :
    List Subject → Except Err (Option Subject)
  | [] => .ok none
  | allSubject :: rest =>
    if allSubject.hasEntity && allSubject.metadata.isClosure &&
        allSubject.metadata.treeChildrenRelation.isSome then
      match subject.metadata.treeChildrenRelation with
      | none => .error .typeError
      | some treeChildren =>
        match getProp st.store allSubject.entityId treeChildren.propertyName with
        | .arr xs =>
          if xs.contains subject.entityId then .ok (some allSubject)
          else closureScanFind st subject rest
        | _ => closureScanFind st subject rest
    else closureScanFind st subject rest

/-- The fallback scan of `insertClosureTableValues` (lines 655-670): find some closure
subject whose tree-children collection contains this entity, and take its
referenced-column value or its newly generated id; the find loop itself can crash
(see `closureScanFind`). -/
def closureParentScan (st : ExecState) (allSubjects : List Subject) (subject : Subject)
    (referencedColumn : ColumnMeta) : Except Err (Option Value) :=
  match closureScanFind st subject allSubjects with
  | .error e => .error e
  | .ok none => .ok none
  | .ok (some parentSubject) =>
    let pid := getProp st.store parentSubject.entityId referencedColumn.propertyName
    if !pid.truthy && (st.muts parentSubject.sid).newlyGeneratedId.truthy then
      .ok (some (st.muts parentSubject.sid).newlyGeneratedId)
    else .ok (some pid)

/-- `insertClosureTableValues` (lines 631-679): resolve the new entity's id (its own
referenced-column value or the insert phase's generated id) and the parent id (own
parent property, parent's insert subject, or the children-collection scan; `0` when
there is no parent), issue the closure-table insert, record the returned level on the
subject, and — when the tree tracks levels — update the entity's own row (keyed by its
referenced column) with that level. -/
def insertClosureTableValues (allSubjects insertSubjects : List Subject)
    (subject : Subject) : M Unit := do
  let st ← getState
  let tableName := subject.metadata.closureJunctionTableName
  match subject.metadata.treeParentRelation with
  | none => mthrow .typeError
  | some treeParent =>
    match treeParent.joinColumn with
    | none => mthrow .typeError
    | some jc =>
      let referencedColumn := jc.referencedColumn
      let entity := subject.entityId
      let newEntityId := closureNewEntityId st subject referencedColumn
      let parentEntityV := getProp st.store entity treeParent.propertyName
      match closureParentPrimary st insertSubjects referencedColumn parentEntityV with
      | .error e => mthrow e
      | .ok parentEntityId0 =>
        match (if !parentEntityId0.truthy then
            closureParentScan st allSubjects subject referencedColumn
          else .ok none) with
        | .error e => mthrow e
        | .ok scanned =>
        let parentEntityId := match scanned with
          | some v => v
          | none => parentEntityId0
        let treeLevel ← callClosureOp tableName newEntityId parentEntityId
          subject.metadata.treeLevelColumn.isSome
        modifyState (fun st => setMut st subject.sid
          (fun m => { m with treeLevel := treeLevel }))
        match subject.metadata.treeLevelColumn with
        | some tlc =>
          mvoid (callOp (.updateQ subject.metadata.tableName
            [(tlc.fullName, treeLevel)] [(referencedColumn.fullName, newEntityId)]))
        | none => pure ()

/-- `executeInsertClosureTableOperations` (lines 617-626). -/
def executeInsertClosureTableOperations (allSubjects insertSubjects : List Subject) :
    M Unit :=
  mforM (insertSubjects.filter (fun subject => subject.metadata.isClosure))
    (fun subject => insertClosureTableValues allSubjects insertSubjects subject)

/-- The own-side id resolution of `insertJunctions` (lines 877-887). -/
def junctionOwnId (store : Store) (muts : Nat → SubjMut) (subject : Subject)
    (relation : RelationMeta) (firstColumn : ColumnMeta) : Value :=
  let ownId := relation.getOwnEntityRelationId store subject.entityId
  if !ownId.truthy then
    if firstColumn.isGenerated then (muts subject.sid).newlyGeneratedId
    else if firstColumn.isObjectId then (muts subject.sid).generatedObjectId
    else ownId
  else ownId

/-- The related-side id resolution of `insertJunctions` (lines 894-917): the bound
entity's referenced-column value, else the generated id of its own insert subject. -/
def junctionRelationId (store : Store) (muts : Nat → SubjMut)
    (insertSubjects : List Subject)
    (relation : RelationMeta) (secondColumn : ColumnMeta) (newBindEntity : Nat) :
    Value :=
  let relationId0 :=
    if relation.isManyToManyOwner then
      getProp store newBindEntity
        ((relation.joinTable.map (fun jt => jt.inverseReferencedColumn.propertyName)).getD "")
    else if relation.isManyToManyNotOwner then
      getProp store newBindEntity
        (((relation.inverseRelation.bind (fun inv => inv.joinTable)).map
          (fun jt => jt.referencedColumn.propertyName)).getD "")
    else .undefined
  if !relationId0.truthy then
    match insertSubjects.find? (fun s => s.entity == some newBindEntity) with
    | some isub =>
      if secondColumn.isGenerated then (muts isub.sid).newlyGeneratedId
      else if secondColumn.isObjectId then (muts isub.sid).generatedObjectId
      else relationId0
    | none => relationId0
  else relationId0

/-- The per-bound-entity body of `insertJunctions` (lines 892-927): resolve the
related id (error when impossible) and insert one junction row, the value pair
ordered (own, related) on the owning side and (related, own) otherwise. -/
def insertJunctionRow (insertSubjects : List Subject) (relation : RelationMeta)
    (jm : JunctionMeta) (secondColumn : ColumnMeta) (ownId : Value)
    (newBindEntity : Nat) : M Unit := do
  let st ← getState
  let relationId := junctionRelationId st.store st.muts insertSubjects relation
    secondColumn newBindEntity
  if !relationId.truthy then mthrow (.cascadeEntity newBindEntity)
  else
    mvoid (callOp (.insertQ jm.tableName
      ((jm.columns.map (fun c => c.fullName)).zip
        (if relation.isOwning then [ownId, relationId] else [relationId, ownId]))))

/-- `insertJunctions` (lines 869-930): resolve the own id (error when impossible),
then insert one junction row per bound entity. -/
def insertJunctions (insertSubjects : List Subject) (subject : Subject)
    (junctionInsert : JunctionInsert) : M Unit := do
  let st ← getState
  let relation := junctionInsert.relation
  let joinTableOpt := if relation.isOwning then relation.joinTable
    else relation.inverseRelation.bind (fun inv => inv.joinTable)
  match joinTableOpt with
  | none => mthrow .typeError
  | some joinTable =>
    let firstColumn := if relation.isOwning then joinTable.referencedColumn
      else joinTable.inverseReferencedColumn
    let secondColumn := if relation.isOwning then joinTable.inverseReferencedColumn
      else joinTable.referencedColumn
    let ownId := junctionOwnId st.store st.muts subject relation firstColumn
    if !ownId.truthy then mthrow (.cascadeOwn subject.metadata.target)
    else
      match relation.junctionMeta with
      | none => mthrow .typeError
      | some jm =>
        mforM junctionInsert.junctionEntities
          (insertJunctionRow insertSubjects relation jm secondColumn ownId)

/-- `executeInsertJunctionsOperations` (lines 855-864). -/
def executeInsertJunctionsOperations (allSubjects insertSubjects : List Subject) :
    M Unit :=
  mforM allSubjects (fun subject =>
    mforM subject.junctionInserts (fun junctionInsert =>
      insertJunctions insertSubjects subject junctionInsert))

/-- `removeJunctions` (lines 953-967): one delete per junction relation id, keyed by
the own and related junction columns (their order depending on the owning side). -/
def removeJunctions (subject : Subject) (junctionRemove : JunctionRemove) : M Unit := do
  let st ← getState
  match junctionRemove.relation.junctionMeta with
  | none => mthrow .typeError
  | some junctionMetadata =>
    let entity := if subject.hasEntity then subject.entityId else subject.dbEntityId
    let ownId := junctionRemove.relation.getOwnEntityRelationId st.store entity
    let ownColumn := if junctionRemove.relation.isOwning
      then junctionMetadata.columns.headD ColumnMeta.default0
      else (junctionMetadata.columns.drop 1).headD ColumnMeta.default0
    let relateColumn := if junctionRemove.relation.isOwning
      then (junctionMetadata.columns.drop 1).headD ColumnMeta.default0
      else junctionMetadata.columns.headD ColumnMeta.default0
    mforM junctionRemove.junctionRelationIds (fun relationId =>
      mvoid (callOp (.deleteQ junctionMetadata.tableName
        (objSet (objSet [] ownColumn.fullName ownId) relateColumn.fullName relationId))))

/-- `executeRemoveJunctionsOperations` (lines 939-948). -/
def executeRemoveJunctionsOperations (allSubjects : List Subject) : M Unit :=
  mforM allSubjects (fun subject =>
    mforM subject.junctionRemoves (fun junctionRemove =>
      removeJunctions subject junctionRemove))

/-- One `{ tableName, metadata, values }` group of `update` (lines 699-707). -/
structure ValueMap where
  tableName : String
  metadata : EntityMeta
  values : List (String × Value)

/-- The find-or-create-then-set step on the `valueMaps` array of `update`. -/
def vmSet (vms : List ValueMap) (tableName : String) (metadata : EntityMeta)
    (key : String) (v : Value) : List ValueMap :=
  if vms.any (fun vm => vm.tableName == tableName) then
    vms.map (fun vm => if vm.tableName == tableName
      then { vm with values := objSet vm.values key v } else vm)
  else vms ++ [{ tableName := tableName, metadata := metadata,
                 values := [(key, v)] }]

/-- One diffed-scalar-column step of `update`'s `valueMaps` construction (lines
701-711): columns without an entity target are skipped; otherwise the prepared entity
value is grouped under the table named by that column's metadata. -/
def diffColumnStep (env : Env) (store : Store) (subject : Subject)
    (vms : List ValueMap) (column : ColumnMeta) : List ValueMap :=
  match column.entityTarget with
  | none => vms
  | some target =>
    let metadata := getMetaD env target
    vmSet vms metadata.tableName metadata column.fullName
      (env.prepare (getProp store subject.entityId column.propertyName) column)

/-- One diffed-relation step of `update`'s `valueMaps` construction (lines 713-723):
the target's first-primary-key value, or null. -/
def diffRelationStep (env : Env) (store : Store) (subject : Subject)
    (vms : List ValueMap) (relation : RelationMeta) : List ValueMap :=
  let metadata := getMetaD env relation.target
  let value := getProp store subject.entityId relation.propertyName
  let v := if value == .null || value == .undefined then .null
    else getPropV store value
      (getMetaD env relation.inverseTarget).firstPrimaryColumn.propertyName
  vmSet vms metadata.tableName metadata relation.name v

/-- The diff-driven part of `update`'s `valueMaps` (lines 701-723). -/
def buildDiffValueMaps (env : Env) (store : Store) (subject : Subject) :
    List ValueMap :=
  subject.diffRelations.foldl (diffRelationStep env store subject)
    (subject.diffColumns.foldl (diffColumnStep env store subject) [])

/-- The special-column part of `update`'s `valueMaps` (lines 729-777), reached only
when some diff produced a group: refresh the update-date column to a freshly
constructed `new Date()` (the environment clock — not the subject's captured `date`),
increment the version column, and do the same on the parent metadata's table for
class-table inheritance. -/
def addSpecialUpdateColumns (env : Env) (store : Store) (subject : Subject)
    (vms0 : List ValueMap) : List ValueMap :=
  let vms1 := match subject.metadata.updateDateColumn with
    | some c => vmSet vms0 subject.metadata.tableName subject.metadata c.fullName
        (env.prepare (.date env.now) c)
    | none => vms0
  let vms2 := match subject.metadata.versionColumn with
    | some c => vmSet vms1 subject.metadata.tableName subject.metadata c.fullName
        (env.prepare ((getProp store subject.entityId c.propertyName).plusOne) c)
    | none => vms1
  match subject.metadata.parentEntityTarget with
  | none => vms2
  | some pt =>
    let pmeta := getMetaD env pt
    let vms3 := match pmeta.updateDateColumn with
      | some c => vmSet vms2 pmeta.tableName pmeta c.fullName
          (env.prepare (.date env.now) c)
      | none => vms2
    match pmeta.versionColumn with
    | some c => vmSet vms3 pmeta.tableName pmeta c.fullName
        (env.prepare ((getProp store subject.entityId c.propertyName).plusOne) c)
    | none => vms3

/-- `update` (lines 695-786): build the per-table value maps from the diffed columns
and relations; when none resulted, issue nothing at all (the source returns before the
update-date/version additions); otherwise add the special columns and issue one update
per physical table, keyed by that metadata's identity map of the entity (whose absence
is a fatal internal error). -/
def updateSubject (subject : Subject) : M Unit := do
  let st ← getState
  let valueMaps := buildDiffValueMaps st.env st.store subject
  -- "if number of updated columns = 0 no need to update updated date and version columns"
  if valueMaps.isEmpty then pure ()
  else
    let valueMaps := addSpecialUpdateColumns st.env st.store subject valueMaps
    mforM valueMaps (fun valueMap =>
      match valueMap.metadata.getDatabaseEntityIdMap st.store subject.entityId with
      | none => mthrow .internalNoId
      | some idMap =>
        mvoid (callOp (.updateQ valueMap.tableName valueMap.values idMap)))

/-- `executeUpdateOperations` (lines 688-690). -/
def executeUpdateOperations (updateSubjects : List Subject) : M Unit :=
  mforM updateSubjects (fun subject => updateSubject subject)

/-- `updateRelations` (lines 802-814): one update setting each re-assigned relation's
foreign-key column to the target's referenced-column value (or null), keyed by the
subject's identity map from its database snapshot. -/
def updateRelationsOf (subject : Subject) : M Unit := do
  let st ← getState
  let values := subject.relationUpdates.foldl (fun acc setRelation =>
    let v := if setRelation.value.truthy then
        getPropV st.store setRelation.value
          ((setRelation.relation.joinColumn.map
            (fun jc => jc.referencedColumn.propertyName)).getD "")
      else .null
    objSet acc setRelation.relation.name v) []
  match subject.metadata.getDatabaseEntityIdMap st.store subject.dbEntityId with
  | none => mthrow .internalNoId
  | some idMap =>
    mvoid (callOp (.updateQ subject.metadata.tableName values idMap))

/-- `executeUpdateRelations` (lines 795-797). -/
def executeUpdateRelations (relationUpdateSubjects : List Subject) : M Unit :=
  mforM relationUpdateSubjects (fun subject => updateRelationsOf subject)

/-- `remove` (lines 830-846): with parent metadata, the parent-table row is deleted
first (keyed by the parent primary columns from the database snapshot) and the
child-table row second (keyed by the child's primary-with-parent-id columns);
otherwise one delete keyed by the identity-column map of the database snapshot
(whose absence crashes the delete call). -/
def removeSubject (subject : Subject) : M Unit := do
  let st ← getState
  match subject.metadata.parentEntityTarget with
  | some pt =>
    let pmeta := getMetaD st.env pt
    let parentConditions := subject.metadata.parentPrimaryColumns.foldl
      (fun conds column => objSet conds column.fullName
        (getProp st.store subject.dbEntityId column.propertyName)) []
    mvoid (callOp (.deleteQ pmeta.tableName parentConditions))
    let childConditions := subject.metadata.primaryColumnsWithParentIdColumns.foldl
      (fun conds column => objSet conds column.fullName
        (getProp st.store subject.dbEntityId column.propertyName)) []
    mvoid (callOp (.deleteQ subject.metadata.tableName childConditions))
  | none =>
    match subject.metadata.getEntityIdColumnMap st.store subject.dbEntityId with
    | some conditions =>
      mvoid (callOp (.deleteQ subject.metadata.tableName conditions))
    | none => mthrow .typeError

/-- `executeRemoveOperations` (lines 823-825): strictly sequential
(`PromiseUtils.runInSequence`). -/
def executeRemoveOperations (removeSubjects : List Subject) : M Unit :=
  mforM removeSubjects (fun subject => removeSubject subject)

/-- The insert part of `updateSpecialColumnsInPersistedEntities` (lines 979-1006),
as a pure store transformation for one subject. -/
def materializeInsertSubject (st : ExecState) (subject : Subject) : Store :=
  let m := st.muts subject.sid
  let e := subject.entityId
  let s0 := st.store
  let s1 := if m.generatedObjectId.truthy && subject.metadata.objectIdColumn.isSome
    then setProp s0 e ((subject.metadata.objectIdColumn.map
      (fun c => c.propertyName)).getD "") m.generatedObjectId
    else s0
  let s2 := subject.metadata.primaryColumns.foldl (fun s pc =>
    if m.newlyGeneratedId.truthy then setProp s e pc.propertyName m.newlyGeneratedId
    else s) s1
  let s3 := subject.metadata.parentPrimaryColumns.foldl (fun s pc =>
    if m.parentGeneratedId.truthy then setProp s e pc.propertyName m.parentGeneratedId
    else s) s2
  let s4 := match subject.metadata.updateDateColumn with
    | some c => setProp s3 e c.propertyName (.date subject.date)
    | none => s3
  let s5 := match subject.metadata.createDateColumn with
    | some c => setProp s4 e c.propertyName (.date subject.date)
    | none => s4
  let s6 := match subject.metadata.versionColumn with
    | some c => setProp s5 e c.propertyName (.num 1)
    | none => s5
  match subject.metadata.treeLevelColumn with
  | some c => setProp s6 e c.propertyName m.treeLevel
  | none => s6

/-- The update part of `updateSpecialColumnsInPersistedEntities` (lines 1009-1014):
the entity's update-date property is set to the subject's captured `date` and its
version property incremented. -/
def materializeUpdateSubject (st : ExecState) (subject : Subject) : Store :=
  let e := subject.entityId
  let s1 := match subject.metadata.updateDateColumn with
    | some c => setProp st.store e c.propertyName (.date subject.date)
    | none => st.store
  match subject.metadata.versionColumn with
  | some c => setProp s1 e c.propertyName ((getProp s1 e c.propertyName).plusOne)
  | none => s1

/-- The remove part of `updateSpecialColumnsInPersistedEntities` (lines 1017-1023):
clear the primary-key properties of removed subjects that still carry an entity. -/
def materializeRemoveSubject (st : ExecState) (subject : Subject) : Store :=
  if subject.hasEntity then
    subject.metadata.primaryColumns.foldl (fun s pc =>
      setProp s subject.entityId pc.propertyName .undefined) st.store
  else st.store

/-- `updateSpecialColumnsInPersistedEntities` (lines 976-1024): the post-commit
materialization — pure in-memory entity mutation, no collaborator calls. -/
def updateSpecialColumnsInPersistedEntities (insertSubjects updateSubjects
    removeSubjects : List Subject) : M Unit := do
  mforM insertSubjects (fun subject =>
    modifyState (fun st => { st with store := materializeInsertSubject st subject }))
  mforM updateSubjects (fun subject =>
    modifyState (fun st => { st with store := materializeUpdateSubject st subject }))
  mforM removeSubjects (fun subject =>
    modifyState (fun st => { st with store := materializeRemoveSubject st subject }))

/-- The commit step of `execute` (lines 126-127): commit only when this call owns the
transaction. -/
def commitIfOwner : M Unit := do
  let st ← getState
  if st.txnOwner then mvoid (callOp .commitTransaction) else pure ()

/-- The seven operation phases of `execute` (lines 117-123), as barriers in order. -/
def executePhases (allSubjects insertSubjects updateSubjects removeSubjects
    relationUpdateSubjects : List Subject) : M Unit := do
  executeInsertOperations allSubjects insertSubjects
  executeInsertClosureTableOperations allSubjects insertSubjects
  executeInsertJunctionsOperations allSubjects insertSubjects
  executeRemoveJunctionsOperations allSubjects
  executeUpdateOperations updateSubjects
  executeUpdateRelations relationUpdateSubjects
  executeRemoveOperations removeSubjects

/-- The transaction-acquisition prologue of `execute`'s try block (lines 103-109):
provide a query runner, ask it whether a transaction is active, and when none is, mark
this call as the owner (the source's `isTransactionStartedByItself`, modelled as the
`txnOwner` state field) and begin one. -/
def executeTxnOpen : M Unit := do
  mvoid (callOp .provide)
  let st ← getState
  modifyState (fun s => { s with calls := s.calls ++ [.isTransactionActive] })
  if !st.env.transactionActive then
    modifyState (fun s => { s with txnOwner := true })
    mvoid (callOp .beginTransaction)
  else pure ()

/-- The middle of `execute`'s try block (lines 112-127): broadcast "before" events
(`recompute` of the update subjects re-derives diffs via the external dirty-checking
algorithm, out of the spec's scope, and is therefore a no-op here), run the seven
phases, and commit when owner. -/
def executeGuardedMain (allSubjects insertSubjects updateSubjects removeSubjects
    relationUpdateSubjects : List Subject) : M Unit := do
  mvoid (callOp .broadcastBeforeAll)
  executePhases allSubjects insertSubjects updateSubjects removeSubjects
    relationUpdateSubjects
  commitIfOwner

/-- The guarded body of `execute` (lines 103-134): acquire/open the transaction,
run the broadcasts-phases-commit middle, materialize the special columns onto the
entities, and broadcast "after" events. -/
def executeGuarded (allSubjects insertSubjects updateSubjects removeSubjects
    relationUpdateSubjects : List Subject) : M Unit := do
  executeTxnOpen
  executeGuardedMain allSubjects insertSubjects updateSubjects removeSubjects
    relationUpdateSubjects
  updateSpecialColumnsInPersistedEntities insertSubjects updateSubjects removeSubjects
  mvoid (callOp .broadcastAfterAll)

/-- The catch handler of `execute` (lines 136-148): when this call owns the
transaction, attempt a rollback and swallow any error it raises, then rethrow the
original error. -/
def executeHandler (error : Err) : M Unit := do
  let st ← getState
  if st.txnOwner then
    mtry (mvoid (callOp .rollbackTransaction)) (fun _ => pure ())
  else pure ()
  mthrow error

/-- `execute` (lines 69-150): validate every subject synchronously, partition the
subjects, return immediately when there is no work at all (no transaction, no
collaborator call), and otherwise run the guarded body under the rollback-and-rethrow
handler. -/
def execute (subjects : List Subject) : M Unit := fun st =>
  match validateAll subjects with
  | .error e => (.error e, st)
  | .ok _ =>
    if (subjects.filter (fun subject => subject.mustBeInserted)).isEmpty &&
       (subjects.filter (fun subject => subject.mustBeUpdated)).isEmpty &&
       (subjects.filter (fun subject => subject.mustBeRemoved)).isEmpty &&
       (subjects.filter (fun subject => subject.hasRelationUpdates)).isEmpty &&
       subjects.all (fun subject => subject.junctionInserts.isEmpty) &&
       subjects.all (fun subject => subject.junctionRemoves.isEmpty) then
      (.ok (), st)
    else
      (mtry (executeGuarded subjects
          (subjects.filter (fun subject => subject.mustBeInserted))
          (subjects.filter (fun subject => subject.mustBeUpdated))
          (subjects.filter (fun subject => subject.mustBeRemoved))
          (subjects.filter (fun subject => subject.hasRelationUpdates)))
        executeHandler)
        { st with txnOwner := false }

/-! Concrete fixtures used by the witnesses and counterexamples below. -/

/-- Metadata of the empty-diff update fixture: both an update-timestamp and a version
column are present. -/
def c8Meta : EntityMeta :=
  { target := "U8", tableName := "u8_table",
    primaryColumns := [{ fullName := "id", propertyName := "id" }],
    updateDateColumn := some { fullName := "updated_at", propertyName := "updatedAt", isUpdateDate := true },
    versionColumn := some { fullName := "version", propertyName := "version", isVersion := true } }

/-- An update subject with no diffed columns and no diffed relations. -/
def c8Subject : Subject :=
  { sid := 0, entity := some 1, metadata := c8Meta, mustBeUpdated := true, date := 3 }

/-- Execution state for the empty-diff update fixture. -/
def c8State : ExecState :=
  { env := { now := 5 },
    store := fun e => if e == 1 then [("id", .num 9), ("version", .num 1)] else [] }

/-- Parent-table metadata of the class-table-inheritance remove fixture. -/
def c2ParentMeta : EntityMeta := { target := "P2", tableName := "parent_table" }

/-- Child-table metadata of the class-table-inheritance remove fixture. -/
def c2ChildMeta : EntityMeta :=
  { target := "C2", tableName := "child_table",
    parentEntityTarget := some "P2",
    primaryColumns := [{ fullName := "id", propertyName := "id" }],
    parentPrimaryColumns := [{ fullName := "id", propertyName := "id" }],
    primaryColumnsWithParentIdColumns := [{ fullName := "id", propertyName := "id" }] }

/-- A remove subject of a table-inheritance entity whose snapshot row has id 5. -/
def c2Subject : Subject :=
  { sid := 0, databaseEntity := some 1, metadata := c2ChildMeta, mustBeRemoved := true }

/-- Execution state for the remove fixture: entity 1 is the snapshot with id 5. -/
def c2State : ExecState :=
  { env := { metas := [("P2", c2ParentMeta)] },
    store := fun e => if e == 1 then [("id", .num 5)] else [] }

/-- A nullable join-column relation for the bucket fixtures. -/
def c1NullableRel : RelationMeta :=
  { name := "b_id", propertyName := "b", isNullable := true, joinColumn := some { referencedColumn := { fullName := "id", propertyName := "id" } } }

/-- A non-nullable join-column relation for the bucket fixtures. -/
def c1RequiredRel : RelationMeta :=
  { name := "a_id", propertyName := "a", isNullable := false, joinColumn := some { referencedColumn := { fullName := "id", propertyName := "id" } } }

/-- Metadata of a bucket-A insert fixture: one nullable join-column relation. -/
def c1NullableMeta : EntityMeta :=
  { target := "A1", tableName := "a_table", relationsWithJoinColumns := [c1NullableRel] }

/-- Metadata of a bucket-B insert fixture: one non-nullable join-column relation. -/
def c1RequiredMeta : EntityMeta :=
  { target := "B1", tableName := "b_table", relationsWithJoinColumns := [c1RequiredRel] }

/-- A bucket-A insert subject. -/
def c1SubjectA : Subject :=
  { sid := 0, entity := some 1, metadata := c1NullableMeta, mustBeInserted := true }

/-- A bucket-B insert subject. -/
def c1SubjectB : Subject :=
  { sid := 1, entity := some 2, metadata := c1RequiredMeta, mustBeInserted := true }

/-- The update-timestamp column of the update-phase fixture. -/
def c3UpdCol : ColumnMeta :=
  { fullName := "updated_at", propertyName := "updatedAt", isUpdateDate := true }

/-- A diffed scalar column targeting the fixture's own entity. -/
def c3DiffCol : ColumnMeta :=
  { fullName := "title", propertyName := "title", entityTarget := some "U3" }

/-- Metadata of the update-timestamp fixture. -/
def c3Meta : EntityMeta :=
  { target := "U3", tableName := "u3_table",
    primaryColumns := [{ fullName := "id", propertyName := "id" }],
    updateDateColumn := some c3UpdCol }

/-- An update subject whose captured date is 3 and that has one diffed column. -/
def c3Subject : Subject :=
  { sid := 0, entity := some 1, metadata := c3Meta, mustBeUpdated := true,
    diffColumns := [c3DiffCol], date := 3 }

/-- Execution state whose clock (`new Date()`) reads 5 — different from the subject's
captured date 3. -/
def c3State : ExecState :=
  { env := { metas := [("U3", c3Meta)], now := 5 },
    store := fun e => if e == 1 then [("id", .num 9), ("title", .str "t")] else [] }

/-- The generated referenced column of the tree fixtures. -/
def c10RefCol : ColumnMeta := { fullName := "id", propertyName := "id", isGenerated := true }

/-- The tree-parent relation of the tree fixtures. -/
def c10ParentRel : RelationMeta :=
  { name := "parent_id", propertyName := "parent", joinColumn := some { referencedColumn := c10RefCol } }

/-- Closure-tree metadata without a tree-level column. -/
def c10Meta : EntityMeta :=
  { target := "T10", tableName := "tree_table", isClosure := true,
    closureJunctionTableName := "tree_closure",
    treeParentRelation := some c10ParentRel }

/-- A tree insert subject whose entity (ref 1) has a parent object (ref 2) that
carries no id, while no insert subject matches that parent. -/
def c10Subject : Subject :=
  { sid := 0, entity := some 1, metadata := c10Meta, mustBeInserted := true }

/-- Execution state for the unresolvable-parent tree fixture. -/
def c10State : ExecState :=
  { env := {}, store := fun e => if e == 1 then [("parent", .obj 2)] else [] }

/-- A tree insert subject with no parent property at all (ref 3). -/
def c10OrphanSubject : Subject :=
  { sid := 1, entity := some 3, metadata := c10Meta, mustBeInserted := true }

/-- Execution state for the orphan tree fixture: the entity carries its own id 4. -/
def c10OrphanState : ExecState :=
  { env := {}, store := fun e => if e == 3 then [("id", .num 4)] else [] }

/-- Closure-tree metadata of a second tree entity type, one that does have a
tree-children relation. -/
def c10ChildrenMeta : EntityMeta :=
  { target := "T10C", tableName := "tree2", isClosure := true,
    closureJunctionTableName := "tree2_closure",
    treeChildrenRelation := some { name := "children", propertyName := "children" } }

/-- A closure subject of the second tree type, present with an entity (ref 5): it
passes the scan's candidate guards, triggering line 660's unguarded dereference of the
current subject's tree-children relation. -/
def c10ScanSubject : Subject :=
  { sid := 2, entity := some 5, metadata := c10ChildrenMeta, mustBeInserted := true }

/-- The tree-level column of the level-tracking tree fixture. -/
def c4TreeLevelCol : ColumnMeta := { fullName := "level", propertyName := "level" }

/-- Closure-tree metadata that tracks levels. -/
def c4Meta : EntityMeta :=
  { target := "T4", tableName := "tree", isClosure := true,
    closureJunctionTableName := "tree_closure",
    treeParentRelation := some c10ParentRel,
    treeLevelColumn := some c4TreeLevelCol }

/-- A tree insert subject (entity ref 1, id 2) whose parent property points at the
already-persisted root (entity ref 2, id 1). -/
def c4Subject : Subject :=
  { sid := 0, entity := some 1, metadata := c4Meta, mustBeInserted := true }

/-- Execution state for the level-tracking tree fixture: the root's self row
(1, 1, level 1) is already in the closure table. -/
def c4State : ExecState :=
  { env := {},
    store := fun e => if e == 1 then [("id", .num 2), ("parent", .obj 2)] else if e == 2 then [("id", .num 1)] else [],
    closure := [{ ancestor := 1, descendant := 1, level := 1 }] }

/-- Metadata of a plain entity with one data column and a generated primary key,
used by the failing-insert fixtures. -/
def cErrMeta : EntityMeta :=
  { target := "User", tableName := "user",
    columnsWithoutEmbeddeds := [{ fullName := "name", propertyName := "name" }],
    primaryColumns := [{ fullName := "id", propertyName := "id", isGenerated := true }],
    generatedColumn := some { fullName := "id", propertyName := "id", isGenerated := true } }

/-- An insert subject for the failing-insert fixtures. -/
def cErrSubject : Subject :=
  { sid := 0, entity := some 1, metadata := cErrMeta, mustBeInserted := true }

/-- Execution state in which the insert statement (call index 3) rejects and the
subsequent rollback (call index 4) rejects as well. -/
def cErrState : ExecState :=
  { env := { insertResult := fun _ => .num 7, failsAt := fun k => k == 3 || k == 4 },
    store := fun e => if e == 1 then [("name", .str "bob")] else [] }

/-- The many-to-many join table of the junction fixture (both sides reference the
entities' `id` property). -/
def c7JoinTable : JoinTableMeta :=
  { referencedColumn := { fullName := "id", propertyName := "id" }, inverseReferencedColumn := { fullName := "id", propertyName := "id" } }

/-- The junction entity metadata of the junction fixture. -/
def c7JunctionMeta : JunctionMeta :=
  { tableName := "post_categories", columns := [{ fullName := "post_id", propertyName := "postId" }, { fullName := "category_id", propertyName := "catId" }] }

/-- An owning many-to-many relation for the junction fixture. -/
def c7Relation : RelationMeta :=
  { name := "categories", propertyName := "categories", isOwning := true, isManyToManyOwner := true, joinTable := some c7JoinTable, junctionMeta := some c7JunctionMeta }

/-- The pending junction insert: link entity 1 to entity 2. -/
def c7JunctionInsert : JunctionInsert :=
  { relation := c7Relation, junctionEntities := [2] }

/-- The subject owning the junction link (entity 1, persisted id 7). -/
def c7Subject : Subject :=
  { sid := 0, entity := some 1, metadata := { target := "Post7" }, junctionInserts := [c7JunctionInsert] }

/-- Execution state for the junction fixture: entity 1 has id 7, entity 2 has id 9. -/
def c7State : ExecState :=
  { env := {},
    store := fun e => if e == 1 then [("id", .num 7)]
      else if e == 2 then [("id", .num 9)] else [] }

/-- A computation is `Tame P` when it preserves the entity heap, the transaction
ownership flag and the environment, and only appends collaborator calls satisfying
`P` to the trace.  This is the invariant carried by the seven operation phases
(`P` = "is a data statement"). -/
def Tame (P : Op → Prop) {α : Type} (act : M α) : Prop :=
  ∀ st, ((act st).2.store = st.store) ∧ ((act st).2.txnOwner = st.txnOwner) ∧
    ((act st).2.env = st.env) ∧
    ∃ new, (act st).2.calls = st.calls ++ new ∧ ∀ op ∈ new, P op

end Typeorm

namespace Typeorm

theorem pure_apply {α : Type} (a : α) (st : ExecState) :
    (pure a : M α) st = (.ok a, st) := rfl

theorem bind_apply {α β : Type} (x : M α) (f : α → M β) (st : ExecState) :
    (x >>= f) st = match x st with
      | (.ok a, st') => f a st'
      | (.error e, st') => (.error e, st') := rfl

theorem tame_pure {P : Op → Prop} {α : Type} (a : α) : Tame P (pure a) := by
  intro st
  exact ⟨rfl, rfl, rfl, [], (List.append_nil st.calls).symm, by simp⟩

theorem tame_getState {P : Op → Prop} : Tame P getState := by
  intro st
  exact ⟨rfl, rfl, rfl, [], (List.append_nil st.calls).symm, by simp⟩

theorem tame_mthrow {P : Op → Prop} {α : Type} (e : Err) : Tame P (mthrow e : M α) := by
  intro st
  exact ⟨rfl, rfl, rfl, [], (List.append_nil st.calls).symm, by simp⟩

theorem tame_bind {P : Op → Prop} {α β : Type} {x : M α} {f : α → M β}
    (hx : Tame P x) (hf : ∀ a, Tame P (f a)) : Tame P (x >>= f) := by
  intro st
  have hb : (x >>= f) st = match x st with
      | (.ok a, st') => f a st'
      | (.error e, st') => (.error e, st') := rfl
  obtain ⟨hs, ht, he, new1, hc, hp⟩ := hx st
  rcases hx1 : x st with ⟨r, st1⟩
  rw [hx1] at hs ht he hc
  cases r with
  | error e =>
    rw [hb, hx1]
    exact ⟨hs, ht, he, new1, hc, hp⟩
  | ok a =>
    obtain ⟨hs2, ht2, he2, new2, hc2, hp2⟩ := hf a st1
    rw [hb, hx1]
    refine ⟨hs2.trans hs, ht2.trans ht, he2.trans he, new1 ++ new2, ?_, ?_⟩
    · rw [hc2, hc, List.append_assoc]
    · intro op hop
      rcases List.mem_append.mp hop with h | h
      · exact hp op h
      · exact hp2 op h

theorem tame_mtry {P : Op → Prop} {α : Type} {x : M α} {h : Err → M α}
    (hx : Tame P x) (hh : ∀ e, Tame P (h e)) : Tame P (mtry x h) := by
  intro st
  obtain ⟨hs, ht, he, new1, hc, hp⟩ := hx st
  have hb : mtry x h st = match x st with
      | (.ok a, st') => (.ok a, st')
      | (.error e, st') => h e st' := rfl
  rcases hx1 : x st with ⟨r, st1⟩
  rw [hx1] at hs ht he hc
  cases r with
  | ok a =>
    rw [hb, hx1]
    exact ⟨hs, ht, he, new1, hc, hp⟩
  | error e =>
    obtain ⟨hs2, ht2, he2, new2, hc2, hp2⟩ := hh e st1
    rw [hb, hx1]
    refine ⟨hs2.trans hs, ht2.trans ht, he2.trans he, new1 ++ new2, ?_, ?_⟩
    · rw [hc2, hc, List.append_assoc]
    · intro op hop
      rcases List.mem_append.mp hop with hm | hm
      · exact hp op hm
      · exact hp2 op hm

theorem tame_mvoid {P : Op → Prop} {α : Type} {x : M α} (hx : Tame P x) :
    Tame P (mvoid x) :=
  tame_bind hx (fun _ => tame_pure ())

theorem tame_mforM {P : Op → Prop} {α : Type} {f : α → M Unit} (l : List α)
    (hf : ∀ a, Tame P (f a)) : Tame P (mforM l f) := by
  induction l with
  | nil => exact tame_pure ()
  | cons a as ih => exact tame_bind (hf a) (fun _ => ih)

theorem callOp_snd (op : Op) (st : ExecState) :
    (callOp op st).2 = { st with counter := st.counter + 1, calls := st.calls ++ [op] } := by
  unfold callOp
  by_cases hf : st.env.failsAt st.counter = true <;> simp [hf]

theorem tame_callOp {P : Op → Prop} (op : Op) (h : P op) : Tame P (callOp op) := by
  intro st
  rw [callOp_snd]
  refine ⟨rfl, rfl, rfl, [op], rfl, ?_⟩
  intro o ho
  rw [List.mem_singleton] at ho
  subst ho
  exact h

theorem callClosureOp_snd_aux (t : String) (n p : Value) (hl : Bool) (st : ExecState) :
    (callClosureOp t n p hl st).2.store = st.store ∧
    (callClosureOp t n p hl st).2.txnOwner = st.txnOwner ∧
    (callClosureOp t n p hl st).2.env = st.env ∧
    (callClosureOp t n p hl st).2.calls = st.calls ++ [.closureQ t n p hl] := by
  unfold callClosureOp
  by_cases hf : st.env.failsAt st.counter = true <;> simp [hf]

theorem tame_callClosureOp {P : Op → Prop} (t : String) (n p : Value) (hl : Bool)
    (h : P (.closureQ t n p hl)) : Tame P (callClosureOp t n p hl) := by
  intro st
  obtain ⟨h1, h2, h3, h4⟩ := callClosureOp_snd_aux t n p hl st
  refine ⟨h1, h2, h3, [.closureQ t n p hl], h4, ?_⟩
  intro o ho
  rw [List.mem_singleton] at ho
  subst ho
  exact h

theorem tame_modifyState {P : Op → Prop} {f : ExecState → ExecState}
    (h : ∀ s, (f s).store = s.store ∧ (f s).txnOwner = s.txnOwner ∧
      (f s).env = s.env ∧ (f s).calls = s.calls) :
    Tame P (modifyState f) := by
  intro st
  obtain ⟨h1, h2, h3, h4⟩ := h st
  exact ⟨h1, h2, h3, [], by simpa [modifyState] using h4, by simp⟩

theorem tame_ite {P : Op → Prop} {α : Type} (c : Prop) [Decidable c] {x y : M α}
    (hx : Tame P x) (hy : Tame P y) : Tame P (if c then x else y) := by
  by_cases h : c
  · simpa [h] using hx
  · simpa [h] using hy

theorem tame_mono {P Q : Op → Prop} {α : Type} (h : ∀ op, P op → Q op) {x : M α}
    (hx : Tame P x) : Tame Q x := by
  intro st
  obtain ⟨h1, h2, h3, new, h4, h5⟩ := hx st
  exact ⟨h1, h2, h3, new, h4, fun op hm => h op (h5 op hm)⟩

/-- The op predicate of the seven phases: only data statements are issued. -/
def QP : Op → Prop := fun op => op.isQuery = true

theorem tame_setMutM {P : Op → Prop} (sid : Nat) (f : SubjMut → SubjMut) :
    Tame P (modifyState (fun st => setMut st sid f)) := by
  apply tame_modifyState
  intro s
  exact ⟨rfl, rfl, rfl, rfl⟩

theorem tame_finishInsert (s : Subject) (pg ng : Value) : Tame QP (finishInsert s pg ng) := by
  unfold finishInsert
  dsimp only
  repeat'
    first
      | exact tame_getState
      | exact tame_pure _
      | exact tame_mthrow _
      | exact tame_setMutM _ _
      | exact tame_mvoid (tame_callOp _ rfl)
      | exact tame_mvoid (tame_callClosureOp _ _ _ _ rfl)
      | exact tame_callOp _ rfl
      | exact tame_callClosureOp _ _ _ _ rfl
      | apply tame_mforM
      | apply tame_ite
      | apply tame_bind
      | split
      | intro _

theorem tame_insertSubject (allS : List Subject) (s : Subject) (already : List Subject) :
    Tame QP (insertSubject allS s already) := by
  unfold insertSubject
  dsimp only
  repeat'
    first
      | exact tame_getState
      | exact tame_pure _
      | exact tame_mthrow _
      | exact tame_setMutM _ _
      | exact tame_finishInsert _ _ _
      | exact tame_mvoid (tame_callOp _ rfl)
      | exact tame_callOp _ rfl
      | apply tame_mforM
      | apply tame_ite
      | apply tame_bind
      | split
      | intro _

theorem tame_backpatchJoinColumns (insS : List Subject) (s : Subject) :
    Tame QP (backpatchJoinColumns insS s) := by
  unfold backpatchJoinColumns
  dsimp only
  repeat'
    first
      | exact tame_getState
      | exact tame_pure _
      | exact tame_mvoid (tame_callOp _ rfl)
      | apply tame_ite
      | apply tame_bind
      | split
      | intro _

theorem tame_backpatchInverse (insS : List Subject) (s : Subject) :
    Tame QP (backpatchInverse insS s) := by
  unfold backpatchInverse
  dsimp only
  repeat'
    first
      | exact tame_getState
      | exact tame_pure _
      | exact tame_mvoid (tame_callOp _ rfl)
      | apply tame_mforM
      | apply tame_ite
      | apply tame_bind
      | split
      | intro _

theorem tame_backpatchPhase (insS firstS : List Subject) :
    Tame QP (backpatchPhase insS firstS) := by
  unfold backpatchPhase
  apply tame_mforM
  intro s
  exact tame_bind (tame_backpatchJoinColumns _ _) (fun _ => tame_backpatchInverse _ _)

theorem tame_executeInsertOperations (allS insS : List Subject) :
    Tame QP (executeInsertOperations allS insS) := by
  unfold executeInsertOperations
  apply tame_bind (tame_mforM _ (fun s => tame_insertSubject _ _ _))
  intro _
  apply tame_bind (tame_mforM _ (fun s => tame_insertSubject _ _ _))
  intro _
  exact tame_backpatchPhase _ _

theorem tame_insertClosureTableValues (allS insS : List Subject) (s : Subject) :
    Tame QP (insertClosureTableValues allS insS s) := by
  unfold insertClosureTableValues
  dsimp only
  repeat'
    first
      | exact tame_getState
      | exact tame_pure _
      | exact tame_mthrow _
      | exact tame_setMutM _ _
      | exact tame_mvoid (tame_callOp _ rfl)
      | exact tame_callClosureOp _ _ _ _ rfl
      | apply tame_mforM
      | apply tame_ite
      | apply tame_bind
      | split
      | intro _

theorem tame_executeInsertClosureTableOperations (allS insS : List Subject) :
    Tame QP (executeInsertClosureTableOperations allS insS) := by
  unfold executeInsertClosureTableOperations
  exact tame_mforM _ (fun s => tame_insertClosureTableValues _ _ _)

theorem tame_insertJunctionRow (insS : List Subject) (rel : RelationMeta)
    (jm : JunctionMeta) (sc : ColumnMeta) (own : Value) (e : Nat) :
    Tame QP (insertJunctionRow insS rel jm sc own e) := by
  unfold insertJunctionRow
  dsimp only
  repeat'
    first
      | exact tame_getState
      | exact tame_pure _
      | exact tame_mthrow _
      | exact tame_mvoid (tame_callOp _ rfl)
      | apply tame_ite
      | apply tame_bind
      | split
      | intro _

theorem tame_insertJunctions (insS : List Subject) (s : Subject) (ji : JunctionInsert) :
    Tame QP (insertJunctions insS s ji) := by
  unfold insertJunctions
  dsimp only
  repeat'
    first
      | exact tame_getState
      | exact tame_pure _
      | exact tame_mthrow _
      | exact tame_insertJunctionRow _ _ _ _ _ _
      | exact tame_mvoid (tame_callOp _ rfl)
      | apply tame_mforM
      | apply tame_ite
      | apply tame_bind
      | split
      | intro _

theorem tame_executeInsertJunctionsOperations (allS insS : List Subject) :
    Tame QP (executeInsertJunctionsOperations allS insS) := by
  unfold executeInsertJunctionsOperations
  exact tame_mforM _ (fun s => tame_mforM _ (fun ji => tame_insertJunctions _ _ _))

theorem tame_removeJunctions (s : Subject) (jr : JunctionRemove) :
    Tame QP (removeJunctions s jr) := by
  unfold removeJunctions
  dsimp only
  repeat'
    first
      | exact tame_getState
      | exact tame_pure _
      | exact tame_mthrow _
      | exact tame_mvoid (tame_callOp _ rfl)
      | apply tame_mforM
      | apply tame_ite
      | apply tame_bind
      | split
      | intro _

theorem tame_executeRemoveJunctionsOperations (allS : List Subject) :
    Tame QP (executeRemoveJunctionsOperations allS) := by
  unfold executeRemoveJunctionsOperations
  exact tame_mforM _ (fun s => tame_mforM _ (fun jr => tame_removeJunctions _ _))

theorem tame_updateSubject (s : Subject) : Tame QP (updateSubject s) := by
  unfold updateSubject
  dsimp only
  repeat'
    first
      | exact tame_getState
      | exact tame_pure _
      | exact tame_mthrow _
      | exact tame_mvoid (tame_callOp _ rfl)
      | apply tame_mforM
      | apply tame_ite
      | apply tame_bind
      | split
      | intro _

theorem tame_executeUpdateOperations (updS : List Subject) :
    Tame QP (executeUpdateOperations updS) := by
  unfold executeUpdateOperations
  exact tame_mforM _ (fun s => tame_updateSubject _)

theorem tame_updateRelationsOf (s : Subject) : Tame QP (updateRelationsOf s) := by
  unfold updateRelationsOf
  dsimp only
  repeat'
    first
      | exact tame_getState
      | exact tame_pure _
      | exact tame_mthrow _
      | exact tame_mvoid (tame_callOp _ rfl)
      | apply tame_ite
      | apply tame_bind
      | split
      | intro _

theorem tame_executeUpdateRelations (relS : List Subject) :
    Tame QP (executeUpdateRelations relS) := by
  unfold executeUpdateRelations
  exact tame_mforM _ (fun s => tame_updateRelationsOf _)

theorem tame_removeSubject (s : Subject) : Tame QP (removeSubject s) := by
  unfold removeSubject
  dsimp only
  repeat'
    first
      | exact tame_getState
      | exact tame_pure _
      | exact tame_mthrow _
      | exact tame_mvoid (tame_callOp _ rfl)
      | apply tame_ite
      | apply tame_bind
      | split
      | intro _

theorem tame_executeRemoveOperations (remS : List Subject) :
    Tame QP (executeRemoveOperations remS) := by
  unfold executeRemoveOperations
  exact tame_mforM _ (fun s => tame_removeSubject _)

theorem tame_executePhases (allS insS updS remS relS : List Subject) :
    Tame QP (executePhases allS insS updS remS relS) := by
  unfold executePhases
  apply tame_bind (tame_executeInsertOperations _ _)
  intro _
  apply tame_bind (tame_executeInsertClosureTableOperations _ _)
  intro _
  apply tame_bind (tame_executeInsertJunctionsOperations _ _)
  intro _
  apply tame_bind (tame_executeRemoveJunctionsOperations _)
  intro _
  apply tame_bind (tame_executeUpdateOperations _)
  intro _
  apply tame_bind (tame_executeUpdateRelations _)
  intro _
  exact tame_executeRemoveOperations _

theorem mvoid_apply {α : Type} (x : M α) (st : ExecState) :
    mvoid x st = match x st with
      | (.ok _, st') => (.ok (), st')
      | (.error e, st') => (.error e, st') := by
  unfold mvoid
  rw [bind_apply]
  rcases x st with ⟨r, st'⟩
  cases r <;> rfl

theorem mtry_apply {α : Type} (x : M α) (h : Err → M α) (st : ExecState) :
    mtry x h st = match x st with
      | (.ok a, st') => (.ok a, st')
      | (.error e, st') => h e st' := rfl

theorem bind_ok {α β : Type} {x : M α} {f : α → M β} {st st' : ExecState} {a : α}
    (h : x st = (.ok a, st')) : (x >>= f) st = f a st' := by
  rw [bind_apply, h]

theorem bind_err {α β : Type} {x : M α} {f : α → M β} {st st' : ExecState} {e : Err}
    (h : x st = (.error e, st')) : (x >>= f) st = (.error e, st') := by
  rw [bind_apply, h]

theorem mvoid_ok {α : Type} {x : M α} {st st' : ExecState} {a : α}
    (h : x st = (.ok a, st')) : mvoid x st = (.ok (), st') := by
  rw [mvoid_apply, h]

theorem mvoid_err {α : Type} {x : M α} {st st' : ExecState} {e : Err}
    (h : x st = (.error e, st')) : mvoid x st = (.error e, st') := by
  rw [mvoid_apply, h]

theorem mthrow_apply {α : Type} (e : Err) (st : ExecState) :
    (mthrow e : M α) st = (.error e, st) := rfl

theorem mforM_nil {α : Type} (f : α → M Unit) : mforM [] f = pure () := rfl

theorem mforM_cons {α : Type} (a : α) (as : List α) (f : α → M Unit) :
    mforM (a :: as) f = f a >>= fun _ => mforM as f := rfl

theorem mvoid_snd {α : Type} (x : M α) (st : ExecState) : (mvoid x st).2 = (x st).2 := by
  rw [mvoid_apply]
  rcases x st with ⟨r, st'⟩
  cases r <;> rfl

theorem getState_apply (st : ExecState) : getState st = (.ok st, st) := rfl

theorem modifyState_apply (f : ExecState → ExecState) (st : ExecState) :
    modifyState f st = (.ok (), f st) := rfl

theorem callOp_apply_fail {op : Op} {st : ExecState}
    (h : st.env.failsAt st.counter = true) :
    callOp op st = (.error (.queryFailed st.counter),
      { st with counter := st.counter + 1, calls := st.calls ++ [op] }) := by
  unfold callOp
  simp [h]

theorem callOp_apply_ok {op : Op} {st : ExecState}
    (h : st.env.failsAt st.counter = false) :
    callOp op st = (.ok (st.env.insertResult st.counter),
      { st with counter := st.counter + 1, calls := st.calls ++ [op] }) := by
  unfold callOp
  simp [h]

theorem executeTxnOpen_spec (st : ExecState) (hflag : st.txnOwner = false) :
    (executeTxnOpen st).2.store = st.store ∧
    (executeTxnOpen st).2.env = st.env ∧
    ∃ new, (executeTxnOpen st).2.calls = st.calls ++ new ∧
      Op.rollbackTransaction ∉ new ∧
      Op.commitTransaction ∉ new ∧
      Op.broadcastAfterAll ∉ new ∧
      ((Op.beginTransaction ∈ new) ↔ (executeTxnOpen st).2.txnOwner = true) ∧
      ((executeTxnOpen st).2.txnOwner = true → st.env.transactionActive = false) := by
  unfold executeTxnOpen
  by_cases hf0 : st.env.failsAt st.counter = true
  · rw [bind_err (mvoid_err (callOp_apply_fail hf0))]
    refine ⟨rfl, rfl, [.provide], rfl, by simp, by simp, by simp, by simp [hflag],
      by simp [hflag]⟩
  · rw [Bool.not_eq_true] at hf0
    rw [bind_ok (mvoid_ok (callOp_apply_ok hf0))]
    rw [bind_ok (getState_apply _)]
    rw [bind_ok (modifyState_apply _ _)]
    split
    next hact =>
      rw [bind_ok (modifyState_apply _ _)]
      refine ⟨?_, ?_, [.provide, .isTransactionActive, .beginTransaction], ?_, by simp,
        by simp, by simp, ?_, ?_⟩
      · rw [mvoid_snd, callOp_snd]
      · rw [mvoid_snd, callOp_snd]
      · rw [mvoid_snd, callOp_snd]
        simp [List.append_assoc]
      · rw [mvoid_snd, callOp_snd]
        simp
      · intro _
        simp only [Bool.not_eq_true'] at hact
        exact hact
    next hact =>
      rw [pure_apply]
      refine ⟨rfl, rfl, [.provide, .isTransactionActive], by simp [List.append_assoc],
        by simp, by simp, by simp, by simp [hflag], by simp [hflag]⟩

theorem commitIfOwner_notOwner (st : ExecState) (h : st.txnOwner = false) :
    commitIfOwner st = (.ok (), st) := by
  unfold commitIfOwner
  rw [bind_apply, getState_apply]
  simp [h, pure_apply]

theorem tame_commitIfOwner :
    Tame (fun op => op = .broadcastBeforeAll ∨ op = .commitTransaction ∨ op.isQuery = true)
      commitIfOwner := by
  unfold commitIfOwner
  apply tame_bind tame_getState
  intro s
  apply tame_ite
  · exact tame_mvoid (tame_callOp _ (Or.inr (Or.inl rfl)))
  · exact tame_pure _

theorem executeGuardedMain_spec (allS insS updS remS relS : List Subject) :
    Tame (fun op => op = .broadcastBeforeAll ∨ op = .commitTransaction ∨ op.isQuery = true)
      (executeGuardedMain allS insS updS remS relS) := by
  unfold executeGuardedMain
  apply tame_bind (tame_mvoid (tame_callOp _ (Or.inl rfl)))
  intro _
  apply tame_bind (tame_mono (fun op h => Or.inr (Or.inr h)) (tame_executePhases _ _ _ _ _))
  intro _
  exact tame_commitIfOwner

theorem executeGuardedMain_notOwner (allS insS updS remS relS : List Subject)
    (st : ExecState) (hflag : st.txnOwner = false) :
    ∃ new, (executeGuardedMain allS insS updS remS relS st).2.calls = st.calls ++ new ∧
      (∀ op ∈ new, op = .broadcastBeforeAll ∨ op.isQuery = true) := by
  unfold executeGuardedMain
  have h1 := tame_mvoid (tame_callOp (P := fun op => op = Op.broadcastBeforeAll)
    .broadcastBeforeAll rfl) st
  rcases hx1 : mvoid (callOp .broadcastBeforeAll) st with ⟨r1, st1⟩
  rw [hx1] at h1
  obtain ⟨_, hflag1, _, new1, hc1, hp1⟩ := h1
  cases r1 with
  | error e =>
    rw [bind_err hx1]
    exact ⟨new1, hc1, fun op h => Or.inl (hp1 op h)⟩
  | ok u =>
    rw [bind_ok hx1]
    have h2 := tame_executePhases allS insS updS remS relS st1
    rcases hx2 : executePhases allS insS updS remS relS st1 with ⟨r2, st2⟩
    rw [hx2] at h2
    obtain ⟨_, hflag2, _, new2, hc2, hp2⟩ := h2
    cases r2 with
    | error e =>
      rw [bind_err hx2]
      refine ⟨new1 ++ new2, by rw [hc2, hc1, List.append_assoc], ?_⟩
      intro op h
      rcases List.mem_append.mp h with h | h
      · exact Or.inl (hp1 op h)
      · exact Or.inr (hp2 op h)
    | ok v =>
      rw [bind_ok hx2]
      rw [commitIfOwner_notOwner st2 (by rw [hflag2, hflag1]; exact hflag)]
      refine ⟨new1 ++ new2, by rw [hc2, hc1, List.append_assoc], ?_⟩
      intro op h
      rcases List.mem_append.mp h with h | h
      · exact Or.inl (hp1 op h)
      · exact Or.inr (hp2 op h)

theorem mforM_modify_spec {α : Type} (g : α → ExecState → ExecState)
    (hg : ∀ a s, (g a s).calls = s.calls ∧ (g a s).txnOwner = s.txnOwner ∧
      (g a s).env = s.env) (l : List α) :
    ∀ st, ∃ st', mforM l (fun a => modifyState (g a)) st = (.ok (), st') ∧
      st'.calls = st.calls ∧ st'.txnOwner = st.txnOwner ∧ st'.env = st.env := by
  induction l with
  | nil =>
    intro st
    exact ⟨st, rfl, rfl, rfl, rfl⟩
  | cons a as ih =>
    intro st
    obtain ⟨st', hrun, hc, ht, he⟩ := ih (g a st)
    obtain ⟨hc0, ht0, he0⟩ := hg a st
    refine ⟨st', ?_, hc.trans hc0, ht.trans ht0, he.trans he0⟩
    show (modifyState (g a) >>= fun _ => mforM as (fun a => modifyState (g a))) st = _
    rw [bind_ok (modifyState_apply _ _), hrun]

theorem updateSpecial_spec (insS updS remS : List Subject) (st : ExecState) :
    ∃ st', updateSpecialColumnsInPersistedEntities insS updS remS st = (.ok (), st') ∧
      st'.calls = st.calls ∧ st'.txnOwner = st.txnOwner ∧ st'.env = st.env := by
  unfold updateSpecialColumnsInPersistedEntities
  obtain ⟨st1, h1, hc1, ht1, he1⟩ := mforM_modify_spec
    (fun subject st => { st with store := materializeInsertSubject st subject })
    (fun a s => ⟨rfl, rfl, rfl⟩) insS st
  obtain ⟨st2, h2, hc2, ht2, he2⟩ := mforM_modify_spec
    (fun subject st => { st with store := materializeUpdateSubject st subject })
    (fun a s => ⟨rfl, rfl, rfl⟩) updS st1
  obtain ⟨st3, h3, hc3, ht3, he3⟩ := mforM_modify_spec
    (fun subject st => { st with store := materializeRemoveSubject st subject })
    (fun a s => ⟨rfl, rfl, rfl⟩) remS st2
  refine ⟨st3, ?_, hc3.trans (hc2.trans hc1), ht3.trans (ht2.trans ht1),
    he3.trans (he2.trans he1)⟩
  rw [bind_ok h1, bind_ok h2, h3]

theorem executeHandler_spec (e : Err) (st : ExecState) :
    (executeHandler e st).1 = .error e ∧
    (executeHandler e st).2.store = st.store ∧
    (executeHandler e st).2.txnOwner = st.txnOwner ∧
    (executeHandler e st).2.env = st.env ∧
    ((st.txnOwner = true ∧
        (executeHandler e st).2.calls = st.calls ++ [.rollbackTransaction]) ∨
     (st.txnOwner = false ∧ (executeHandler e st).2.calls = st.calls)) := by
  unfold executeHandler
  rw [bind_ok (getState_apply st)]
  by_cases hflag : st.txnOwner = true
  · rw [if_pos hflag]
    have hmtry : mtry (mvoid (callOp Op.rollbackTransaction)) (fun _ => pure ()) st =
        (.ok (), { st with counter := st.counter + 1, calls := st.calls ++ [Op.rollbackTransaction] }) := by
      by_cases hf : st.env.failsAt st.counter = true
      · rw [mtry_apply, mvoid_err (callOp_apply_fail hf)]
        rfl
      · rw [Bool.not_eq_true] at hf
        rw [mtry_apply, mvoid_ok (callOp_apply_ok hf)]
    rw [bind_ok hmtry]
    exact ⟨rfl, rfl, rfl, rfl, Or.inl ⟨hflag, rfl⟩⟩
  · rw [if_neg hflag]
    rw [Bool.not_eq_true] at hflag
    rw [bind_ok (pure_apply () st)]
    exact ⟨rfl, rfl, rfl, rfl, Or.inr ⟨hflag, rfl⟩⟩

theorem executeGuardedMain_full (allS insS updS remS relS : List Subject)
    (st : ExecState) :
    (executeGuardedMain allS insS updS remS relS st).2.store = st.store ∧
    (executeGuardedMain allS insS updS remS relS st).2.txnOwner = st.txnOwner ∧
    (executeGuardedMain allS insS updS remS relS st).2.env = st.env ∧
    ∃ new, (executeGuardedMain allS insS updS remS relS st).2.calls = st.calls ++ new ∧
      (∀ op ∈ new, op = .broadcastBeforeAll ∨ op = .commitTransaction ∨
        op.isQuery = true) ∧
      (st.txnOwner = false → ∀ op ∈ new, ¬op = .commitTransaction) := by
  obtain ⟨h1, h2, h3, new, hc, hp⟩ := executeGuardedMain_spec allS insS updS remS relS st
  refine ⟨h1, h2, h3, new, hc, hp, ?_⟩
  intro hflag
  obtain ⟨new', hc', hp'⟩ := executeGuardedMain_notOwner allS insS updS remS relS st hflag
  have hnn : new = new' := List.append_cancel_left (hc.symm.trans hc')
  subst hnn
  intro op hop
  rcases hp' op hop with h | h
  · subst h
    simp
  · intro heq
    subst heq
    simp [Op.isQuery] at h

theorem executeGuarded_spec (allS insS updS remS relS : List Subject) (st : ExecState)
    (hflag : st.txnOwner = false) :
    (executeGuarded allS insS updS remS relS st).2.env = st.env ∧
    ∃ new, (executeGuarded allS insS updS remS relS st).2.calls = st.calls ++ new ∧
      Op.rollbackTransaction ∉ new ∧
      ((Op.beginTransaction ∈ new) ↔
        (executeGuarded allS insS updS remS relS st).2.txnOwner = true) ∧
      ((executeGuarded allS insS updS remS relS st).2.txnOwner = true →
        st.env.transactionActive = false) ∧
      (st.env.transactionActive = true → Op.commitTransaction ∉ new) ∧
      (Op.broadcastAfterAll ∉ new →
        (executeGuarded allS insS updS remS relS st).2.store = st.store) := by
  unfold executeGuarded
  obtain ⟨hs1, he1, new1, hc1, hnr1, hnc1, hnb1, hbeg1, hown1⟩ :=
    executeTxnOpen_spec st hflag
  rcases h1 : executeTxnOpen st with ⟨r1, st1⟩
  rw [h1] at hs1 he1 hc1 hbeg1 hown1
  cases r1 with
  | error e =>
    rw [bind_err h1]
    exact ⟨he1, new1, hc1, hnr1, hbeg1, hown1, fun _ => hnc1, fun _ => hs1⟩
  | ok u1 =>
    rw [bind_ok h1]
    obtain ⟨hs2, ht2, he2, new2, hc2, hp2, hnc2⟩ :=
      executeGuardedMain_full allS insS updS remS relS st1
    rcases h2 : executeGuardedMain allS insS updS remS relS st1 with ⟨r2, st2⟩
    rw [h2] at hs2 ht2 he2 hc2
    have hnb2 : Op.broadcastAfterAll ∉ new2 := by
      intro hmem
      rcases hp2 _ hmem with h | h | h
      · exact absurd h (by simp)
      · exact absurd h (by simp)
      · simp [Op.isQuery] at h
    have hnr2 : Op.rollbackTransaction ∉ new2 := by
      intro hmem
      rcases hp2 _ hmem with h | h | h
      · exact absurd h (by simp)
      · exact absurd h (by simp)
      · simp [Op.isQuery] at h
    have hng2 : Op.beginTransaction ∉ new2 := by
      intro hmem
      rcases hp2 _ hmem with h | h | h
      · exact absurd h (by simp)
      · exact absurd h (by simp)
      · simp [Op.isQuery] at h
    have hcommit2 : st.env.transactionActive = true → Op.commitTransaction ∉ new2 := by
      intro hact hmem
      have hflag1 : st1.txnOwner = false := by
        by_cases hb : st1.txnOwner = true
        · rw [hown1 hb] at hact
          exact absurd hact (by simp)
        · exact Bool.not_eq_true _ |>.mp hb
      exact (hnc2 hflag1) _ hmem rfl
    cases r2 with
    | error e =>
      rw [bind_err h2]
      refine ⟨he2.trans he1, new1 ++ new2, by rw [hc2, hc1, List.append_assoc], ?_, ?_,
        ?_, ?_, ?_⟩
      · simp only [List.mem_append]
        rintro (h | h)
        · exact hnr1 h
        · exact hnr2 h
      · rw [ht2]
        constructor
        · intro hmem
          rcases List.mem_append.mp hmem with h | h
          · exact hbeg1.mp h
          · exact absurd h hng2
        · intro h
          exact List.mem_append.mpr (Or.inl (hbeg1.mpr h))
      · intro h
        exact hown1 (ht2 ▸ h)
      · intro hact
        simp only [List.mem_append]
        rintro (h | h)
        · exact hnc1 h
        · exact hcommit2 hact h
      · intro _
        exact hs2.trans hs1
    | ok u2 =>
      rw [bind_ok h2]
      obtain ⟨st3, h3, hc3, ht3, he3⟩ := updateSpecial_spec insS updS remS st2
      rw [bind_ok h3]
      refine ⟨?_, new1 ++ new2 ++ [.broadcastAfterAll], ?_, ?_, ?_, ?_, ?_, ?_⟩
      · rw [mvoid_snd, callOp_snd]
        exact he3.trans (he2.trans he1)
      · rw [mvoid_snd, callOp_snd]
        show st3.calls ++ [Op.broadcastAfterAll] = _
        rw [hc3, hc2, hc1]
        simp [List.append_assoc]
      · simp only [List.mem_append]
        rintro ((h | h) | h)
        · exact hnr1 h
        · exact hnr2 h
        · simp at h
      · rw [mvoid_snd, callOp_snd]
        show _ ↔ st3.txnOwner = true
        rw [ht3, ht2]
        constructor
        · intro hmem
          rcases List.mem_append.mp hmem with h | h
          · rcases List.mem_append.mp h with h' | h'
            · exact hbeg1.mp h'
            · exact absurd h' hng2
          · simp at h
        · intro h
          exact List.mem_append.mpr (Or.inl (List.mem_append.mpr (Or.inl (hbeg1.mpr h))))
      · rw [mvoid_snd, callOp_snd]
        show st3.txnOwner = true → _
        rw [ht3, ht2]
        exact hown1
      · intro hact
        simp only [List.mem_append]
        rintro ((h | h) | h)
        · exact hnc1 h
        · exact hcommit2 hact h
        · simp at h
      · intro hba
        exact absurd (by simp : Op.broadcastAfterAll ∈ new1 ++ new2 ++ [.broadcastAfterAll]) hba

/-- C9: Calling `execute` with an empty subject list returns without opening or
committing a transaction and without invoking any Query Runner, Broadcaster, or Driver
collaborator call — the execution state (including the collaborator-call trace and the
entity heap) is returned exactly unchanged. -/
theorem execute_empty_is_noop : ∀ st : ExecState, execute [] st = (.ok (), st) :=
  fun _ => rfl

/-- C5: In every execution of `execute` that ends in an error, a rollback is attempted
if and only if this call itself opened the transaction (began it); a call that joined
an already-active transaction never begins, commits, or rolls back; and the propagated
error is exactly the error produced by the guarded body — an error thrown by the
rollback itself is swallowed and never replaces it. -/
theorem execute_rollback_iff_owner (subjects : List Subject) (st : ExecState) (e : Err)
    (h0 : st.calls = [])
    (herr : (execute subjects st).1 = .error e) :
    ((Op.rollbackTransaction ∈ (execute subjects st).2.calls) ↔
      (Op.beginTransaction ∈ (execute subjects st).2.calls)) ∧
    (st.env.transactionActive = true →
      Op.commitTransaction ∉ (execute subjects st).2.calls ∧
      Op.rollbackTransaction ∉ (execute subjects st).2.calls ∧
      Op.beginTransaction ∉ (execute subjects st).2.calls) ∧
    (Op.beginTransaction ∈ (execute subjects st).2.calls →
      (executeGuarded subjects
        (subjects.filter (fun subject => subject.mustBeInserted))
        (subjects.filter (fun subject => subject.mustBeUpdated))
        (subjects.filter (fun subject => subject.mustBeRemoved))
        (subjects.filter (fun subject => subject.hasRelationUpdates))
        { st with txnOwner := false }).1 = .error e) := by
  cases hv : validateAll subjects with
  | error e0 =>
    have hex : execute subjects st = (.error e0, st) := by
      unfold execute
      rw [hv]
    rw [hex] at herr ⊢
    refine ⟨by simp [h0], fun _ => ⟨by simp [h0], by simp [h0], by simp [h0]⟩, ?_⟩
    intro hmem
    exact absurd hmem (by simp [h0])
  | ok u =>
    by_cases hwork : ((subjects.filter (fun subject => subject.mustBeInserted)).isEmpty &&
       (subjects.filter (fun subject => subject.mustBeUpdated)).isEmpty &&
       (subjects.filter (fun subject => subject.mustBeRemoved)).isEmpty &&
       (subjects.filter (fun subject => subject.hasRelationUpdates)).isEmpty &&
       subjects.all (fun subject => subject.junctionInserts.isEmpty) &&
       subjects.all (fun subject => subject.junctionRemoves.isEmpty)) = true
    · have hex : execute subjects st = (.ok (), st) := by
        unfold execute
        rw [hv, if_pos hwork]
      rw [hex] at herr
      exact absurd herr (by simp)
    · have hex : execute subjects st =
          (mtry (executeGuarded subjects
            (subjects.filter (fun subject => subject.mustBeInserted))
            (subjects.filter (fun subject => subject.mustBeUpdated))
            (subjects.filter (fun subject => subject.mustBeRemoved))
            (subjects.filter (fun subject => subject.hasRelationUpdates)))
            executeHandler) { st with txnOwner := false } := by
        unfold execute
        rw [hv, if_neg hwork]
      obtain ⟨henv, new, hcalls, hnr, hbeg, hown, hcommit, hstore⟩ :=
        executeGuarded_spec subjects
          (subjects.filter (fun subject => subject.mustBeInserted))
          (subjects.filter (fun subject => subject.mustBeUpdated))
          (subjects.filter (fun subject => subject.mustBeRemoved))
          (subjects.filter (fun subject => subject.hasRelationUpdates))
          { st with txnOwner := false } rfl
      rcases hg : executeGuarded subjects
          (subjects.filter (fun subject => subject.mustBeInserted))
          (subjects.filter (fun subject => subject.mustBeUpdated))
          (subjects.filter (fun subject => subject.mustBeRemoved))
          (subjects.filter (fun subject => subject.hasRelationUpdates))
          { st with txnOwner := false } with ⟨rg, stG⟩
      rw [hg] at henv hcalls hbeg hown
      have hstIcalls : ({ st with txnOwner := false } : ExecState).calls = [] := h0
      cases rg with
      | ok ug =>
        rw [hex, mtry_apply, hg] at herr
        exact absurd herr (by simp)
      | error eg =>
        have hmtry : execute subjects st = executeHandler eg stG := by
          rw [hex, mtry_apply, hg]
        obtain ⟨hh1, hh2, hh3, hh4, hh5⟩ := executeHandler_spec eg stG
        have heeq : eg = e := by
          rw [hmtry, hh1] at herr
          simpa using herr
        have hGcalls : stG.calls = new := by
          rw [hcalls, hstIcalls, List.nil_append]
        rcases hh5 with ⟨hflagT, hHcalls⟩ | ⟨hflagF, hHcalls⟩
        · -- this call opened the transaction: rollback attempted, begin present
          have hbegmem : Op.beginTransaction ∈ new := hbeg.mpr hflagT
          refine ⟨?_, ?_, ?_⟩
          · rw [hmtry, hHcalls, hGcalls]
            constructor
            · intro _
              simp only [List.mem_append]
              exact Or.inl hbegmem
            · intro _
              simp
          · intro hact
            exact absurd (hown hflagT) (by simp [hact])
          · intro _
            simp [heeq]
        · -- joined transaction: no rollback, no begin
          have hbegnot : Op.beginTransaction ∉ new := by
            intro hmem
            rw [hbeg] at hmem
            rw [hflagF] at hmem
            exact absurd hmem (by simp)
          refine ⟨?_, ?_, ?_⟩
          · rw [hmtry, hHcalls, hGcalls]
            constructor
            · intro hmem
              exact absurd hmem hnr
            · intro hmem
              exact absurd hmem hbegnot
          · intro hact
            rw [hmtry, hHcalls, hGcalls]
            exact ⟨hcommit hact, hnr, hbegnot⟩
          · intro _
            simp [heeq]

/-- C6: When `execute` rejects before the post-commit materialization could run (in
particular whenever a query of one of the seven phases rejects — then the
after-broadcast is never attempted), no caller-visible entity property is written by
this call: the entity heap is returned exactly as the caller supplied it. -/
theorem execute_error_leaves_entities_untouched (subjects : List Subject)
    (st : ExecState) (e : Err)
    (h0 : st.calls = [])
    (herr : (execute subjects st).1 = .error e)
    (hba : Op.broadcastAfterAll ∉ (execute subjects st).2.calls) :
    (execute subjects st).2.store = st.store := by
  cases hv : validateAll subjects with
  | error e0 =>
    have hex : execute subjects st = (.error e0, st) := by
      unfold execute
      rw [hv]
    rw [hex]
  | ok u =>
    by_cases hwork : ((subjects.filter (fun subject => subject.mustBeInserted)).isEmpty &&
       (subjects.filter (fun subject => subject.mustBeUpdated)).isEmpty &&
       (subjects.filter (fun subject => subject.mustBeRemoved)).isEmpty &&
       (subjects.filter (fun subject => subject.hasRelationUpdates)).isEmpty &&
       subjects.all (fun subject => subject.junctionInserts.isEmpty) &&
       subjects.all (fun subject => subject.junctionRemoves.isEmpty)) = true
    · have hex : execute subjects st = (.ok (), st) := by
        unfold execute
        rw [hv, if_pos hwork]
      rw [hex] at herr
      exact absurd herr (by simp)
    · have hex : execute subjects st =
          (mtry (executeGuarded subjects
            (subjects.filter (fun subject => subject.mustBeInserted))
            (subjects.filter (fun subject => subject.mustBeUpdated))
            (subjects.filter (fun subject => subject.mustBeRemoved))
            (subjects.filter (fun subject => subject.hasRelationUpdates)))
            executeHandler) { st with txnOwner := false } := by
        unfold execute
        rw [hv, if_neg hwork]
      obtain ⟨henv, new, hcalls, hnr, hbeg, hown, hcommit, hstore⟩ :=
        executeGuarded_spec subjects
          (subjects.filter (fun subject => subject.mustBeInserted))
          (subjects.filter (fun subject => subject.mustBeUpdated))
          (subjects.filter (fun subject => subject.mustBeRemoved))
          (subjects.filter (fun subject => subject.hasRelationUpdates))
          { st with txnOwner := false } rfl
      rcases hg : executeGuarded subjects
          (subjects.filter (fun subject => subject.mustBeInserted))
          (subjects.filter (fun subject => subject.mustBeUpdated))
          (subjects.filter (fun subject => subject.mustBeRemoved))
          (subjects.filter (fun subject => subject.hasRelationUpdates))
          { st with txnOwner := false } with ⟨rg, stG⟩
      rw [hg] at hcalls hstore
      cases rg with
      | ok ug =>
        rw [hex, mtry_apply, hg] at herr
        exact absurd herr (by simp)
      | error eg =>
        have hmtry : execute subjects st = executeHandler eg stG := by
          rw [hex, mtry_apply, hg]
        obtain ⟨hh1, hh2, hh3, hh4, hh5⟩ := executeHandler_spec eg stG
        have hGcalls : stG.calls = new := by
          rw [hcalls, h0, List.nil_append]
        have hbanew : Op.broadcastAfterAll ∉ new := by
          intro hmem
          apply hba
          rw [hmtry]
          rcases hh5 with ⟨_, hHcalls⟩ | ⟨_, hHcalls⟩
          · rw [hHcalls, hGcalls]
            simp only [List.mem_append]
            exact Or.inl hmem
          · rw [hHcalls, hGcalls]
            exact hmem
        have hGs : stG.store = st.store := hstore hbanew
        rw [hmtry, hh2, hGs]

/-- C1: The insert phase partitions the insert subjects into bucket A — subjects whose
metadata has no non-nullable foreign-key (join) column — and bucket B, the rest; the
whole phase is exactly: run every bucket-A insert (each with an empty already-inserted
set), and only after all of bucket A completed (sequencing through the monad), run
every bucket-B insert with the completed bucket A passed as its already-inserted set,
then the back-patch pass over bucket A.  The two filters exactly partition the insert
subjects. -/
theorem executeInsertOperations_two_buckets (allS insS : List Subject) (st : ExecState) :
    executeInsertOperations allS insS st =
      (mforM (insS.filter (fun s => !s.metadata.hasNonNullableColumns))
          (fun subject => insertSubject allS subject []) >>= fun _ =>
        mforM (insS.filter (fun s => s.metadata.hasNonNullableColumns))
          (fun subject => insertSubject allS subject
            (insS.filter (fun s => !s.metadata.hasNonNullableColumns))) >>= fun _ =>
        backpatchPhase insS (insS.filter (fun s => !s.metadata.hasNonNullableColumns))) st ∧
    (∀ s ∈ insS.filter (fun s => !s.metadata.hasNonNullableColumns),
      ∀ r ∈ s.metadata.relationsWithJoinColumns, r.isNullable = true) ∧
    (∀ s ∈ insS.filter (fun s => s.metadata.hasNonNullableColumns),
      ∃ r ∈ s.metadata.relationsWithJoinColumns, r.isNullable = false) ∧
    (insS.filter (fun s => !s.metadata.hasNonNullableColumns) ++
      insS.filter (fun s => s.metadata.hasNonNullableColumns)).Perm insS := by
  refine ⟨rfl, ?_, ?_, ?_⟩
  · intro s hs r hr
    have hmem := (List.mem_filter.mp hs).2
    rw [Bool.not_eq_true'] at hmem
    unfold EntityMeta.hasNonNullableColumns at hmem
    rw [List.any_eq_false] at hmem
    have h2 := hmem r hr
    simpa using h2
  · intro s hs
    have hmem := (List.mem_filter.mp hs).2
    unfold EntityMeta.hasNonNullableColumns at hmem
    rw [List.any_eq_true] at hmem
    obtain ⟨r, hr, hneg⟩ := hmem
    exact ⟨r, hr, by simpa using hneg⟩
  · have hfun : (fun s : Subject => s.metadata.hasNonNullableColumns) =
        (fun s : Subject => !(!s.metadata.hasNonNullableColumns)) := by
      funext s
      rw [Bool.not_not]
    rw [hfun]
    exact List.filter_append_perm _ _

/-- C1 witness: on the concrete two-subject batch, the bucket characterizations are
inhabited — the bucket-A member's join-column relations are all nullable. -/
theorem executeInsertOperations_two_buckets_witness :
    ∀ r ∈ c1SubjectA.metadata.relationsWithJoinColumns, r.isNullable = true :=
  (executeInsertOperations_two_buckets [c1SubjectA, c1SubjectB]
    [c1SubjectA, c1SubjectB] c2State).2.1 c1SubjectA
    (List.mem_filter.mpr ⟨by simp, by decide⟩)

/-- C2 counterexample: for a concrete remove subject of a table-inheritance entity,
the first delete statement issued targets the *parent* table ("parent_table"), not the
child table — refuting the claimed child-first order — and the second targets the
child table. -/
theorem remove_order_counterexample :
    (removeSubject c2Subject c2State).2.calls =
      [.deleteQ "parent_table" [("id", .num 5)],
       .deleteQ "child_table" [("id", .num 5)]] ∧
    c2Subject.metadata.tableName = "child_table" ∧
    "parent_table" ≠ "child_table" := by
  refine ⟨by decide, by decide, by decide⟩

/-- C2 amended: for a remove subject whose metadata has a parent entity metadata,
exactly two delete statements are issued — the *parent*-table row first (keyed by the
parent primary columns valued from the database snapshot) and then the child-table row
(keyed by the primary-with-parent-id columns valued from the snapshot); for a subject
without parent metadata whose snapshot identity map resolves, exactly one delete is
issued against the entity's own table. -/
theorem remove_statements (subject : Subject) (st : ExecState)
    (hf : ∀ k, st.env.failsAt k = false) :
    (∀ pt, subject.metadata.parentEntityTarget = some pt →
      (removeSubject subject st).1 = .ok () ∧
      (removeSubject subject st).2.calls = st.calls ++
        [.deleteQ (getMetaD st.env pt).tableName
          (subject.metadata.parentPrimaryColumns.foldl (fun conds column =>
            objSet conds column.fullName
              (getProp st.store subject.dbEntityId column.propertyName)) []),
         .deleteQ subject.metadata.tableName
          (subject.metadata.primaryColumnsWithParentIdColumns.foldl (fun conds column =>
            objSet conds column.fullName
              (getProp st.store subject.dbEntityId column.propertyName)) [])]) ∧
    (subject.metadata.parentEntityTarget = none →
      ∀ m, subject.metadata.getEntityIdColumnMap st.store subject.dbEntityId = some m →
        (removeSubject subject st).1 = .ok () ∧
        (removeSubject subject st).2.calls = st.calls ++
          [.deleteQ subject.metadata.tableName m]) := by
  constructor
  · intro pt hpt
    unfold removeSubject
    rw [bind_ok (getState_apply st)]
    simp only [hpt]
    rw [bind_ok (mvoid_ok (callOp_apply_ok (hf st.counter)))]
    have h2 := hf (st.counter + 1)
    rw [mvoid_ok (callOp_apply_ok h2)]
    exact ⟨rfl, by simp [List.append_assoc]⟩
  · intro hpt m hm
    unfold removeSubject
    rw [bind_ok (getState_apply st)]
    simp only [hpt, hm]
    rw [mvoid_ok (callOp_apply_ok (hf st.counter))]
    exact ⟨rfl, rfl⟩

/-- C2 witness: the amended statement instantiated on the concrete fixture — the
parent-table delete first, then the child-table delete. -/
theorem remove_statements_witness :
    (removeSubject c2Subject c2State).2.calls =
      [.deleteQ "parent_table" [("id", .num 5)],
       .deleteQ "child_table" [("id", .num 5)]] := by
  have h := ((remove_statements c2Subject c2State (fun k => rfl)).1 "P2" rfl).2
  simpa using h

theorem objGet_objSet_self (m : List (String × Value)) (k : String) (v : Value) :
    objGet (objSet m k v) k = some v := by
  unfold objSet
  by_cases h : m.any (fun p => p.1 == k) = true
  · rw [if_pos h]
    unfold objGet
    have hfind : ∀ (l : List (String × Value)), l.any (fun p => p.1 == k) = true →
        List.find? (fun p => p.1 == k)
          (l.map (fun p => if p.1 == k then (k, v) else p)) = some (k, v) := by
      intro l
      induction l with
      | nil =>
        intro hl
        simp at hl
      | cons p ps ih =>
        intro hl
        rw [List.map_cons]
        by_cases hp : (p.1 == k) = true
        · rw [if_pos hp]
          simp [List.find?]
        · rw [if_neg hp]
          have hp' : (p.1 == k) = false := by simpa using hp
          rw [show List.find? (fun p => p.1 == k)
              (p :: List.map (fun p => if (p.1 == k) = true then (k, v) else p) ps) =
              List.find? (fun p => p.1 == k)
              (List.map (fun p => if (p.1 == k) = true then (k, v) else p) ps) from by
            simp [List.find?, hp']]
          apply ih
          rcases List.any_eq_true.mp hl with ⟨x, hx, hxk⟩
          rcases List.mem_cons.mp hx with rfl | hx'
          · exact absurd hxk hp
          · exact List.any_eq_true.mpr ⟨x, hx', hxk⟩
    rw [hfind m h]
    rfl
  · rw [if_neg h]
    unfold objGet
    rw [Bool.not_eq_true, List.any_eq_false] at h
    have hfind : ∀ (l : List (String × Value)), (∀ x ∈ l, ¬(x.1 == k) = true) →
        List.find? (fun p => p.1 == k) (l ++ [(k, v)]) = some (k, v) := by
      intro l
      induction l with
      | nil =>
        intro _
        simp
      | cons p ps ih =>
        intro hl
        have hp' : (p.1 == k) = false := by simpa using hl p (by simp)
        rw [List.cons_append]
        rw [show List.find? (fun p => p.1 == k) (p :: (ps ++ [(k, v)])) =
            List.find? (fun p => p.1 == k) (ps ++ [(k, v)]) from by
          simp [List.find?, hp']]
        exact ih (fun x hx => hl x (by simp [hx]))
    rw [hfind m h]
    rfl

theorem getProp_setProp_self (store : Store) (e : Nat) (k : String) (v : Value) :
    getProp (setProp store e k v) e k = v := by
  unfold getProp setProp
  simp [objGet_objSet_self]

theorem vmSet_mem (vms : List ValueMap) (tn : String) (md : EntityMeta) (k : String)
    (v : Value) :
    ∃ vm ∈ vmSet vms tn md k v, vm.tableName = tn ∧ objGet vm.values k = some v := by
  unfold vmSet
  by_cases h : vms.any (fun vm => vm.tableName == tn) = true
  · rw [if_pos h]
    rcases List.any_eq_true.mp h with ⟨vm0, hmem, htn⟩
    refine ⟨{ vm0 with values := objSet vm0.values k v }, ?_, ?_, objGet_objSet_self _ _ _⟩
    · rw [List.mem_map]
      refine ⟨vm0, hmem, ?_⟩
      rw [if_pos htn]
    · exact (eq_of_beq htn)
  · rw [if_neg h]
    refine ⟨{ tableName := tn, metadata := md, values := [(k, v)] }, by simp, rfl, ?_⟩
    simp [objGet]

theorem diffColumnStep_none (env : Env) (store : Store) (subject : Subject)
    (vms : List ValueMap) (column : ColumnMeta) (h : column.entityTarget = none) :
    diffColumnStep env store subject vms column = vms := by
  unfold diffColumnStep
  rw [h]

theorem foldl_diffColumnStep_none (env : Env) (store : Store) (subject : Subject)
    (l : List ColumnMeta) (h : ∀ c ∈ l, c.entityTarget = none) (acc : List ValueMap) :
    l.foldl (diffColumnStep env store subject) acc = acc := by
  induction l generalizing acc with
  | nil => rfl
  | cons c cs ih =>
    rw [List.foldl_cons, diffColumnStep_none env store subject acc c (h c (by simp))]
    exact ih (fun x hx => h x (by simp [hx])) acc

/-- C8 counterexample: a concrete update subject with no diffed columns and no diffed
relations, whose metadata carries both an update-timestamp column and a version
column: the update phase issues no statement at all (the state is returned unchanged),
refuting the claimed forced write. -/
theorem update_no_forced_write_counterexample :
    updateSubject c8Subject c8State = (.ok (), c8State) ∧
    c8Subject.metadata.updateDateColumn.isSome = true ∧
    c8Subject.metadata.versionColumn.isSome = true ∧
    c8Subject.diffColumns = [] ∧ c8Subject.diffRelations = [] :=
  ⟨rfl, rfl, rfl, rfl, rfl⟩

/-- C8 amended: for every update subject whose diffed columns and diffed relations
produce no value group (no diffed relations and every diffed column lacking an entity
target), no update statement is issued for that subject at all — the presence of a
version or update-timestamp column does *not* force a write, because the source
returns before the special-column additions ("if number of updated columns = 0 no need
to update updated date and version columns"). -/
theorem update_skips_when_no_diff_values (subject : Subject) (st : ExecState)
    (hcols : ∀ c ∈ subject.diffColumns, c.entityTarget = none)
    (hrels : subject.diffRelations = []) :
    updateSubject subject st = (.ok (), st) := by
  have hvm : buildDiffValueMaps st.env st.store subject = [] := by
    unfold buildDiffValueMaps
    rw [hrels, List.foldl_nil, foldl_diffColumnStep_none st.env st.store subject _ hcols]
  unfold updateSubject
  rw [bind_ok (getState_apply st)]
  simp only [hvm]
  rfl

/-- C8 witness: the amended statement instantiated on the concrete fixture. -/
theorem update_skips_when_no_diff_values_witness :
    updateSubject c8Subject c8State = (.ok (), c8State) :=
  update_skips_when_no_diff_values c8Subject c8State
    (fun c hc => absurd hc (List.not_mem_nil c)) rfl

theorem callClosureOp_apply_ok {t : String} {n p : Value} {hl : Bool} {st : ExecState}
    (h : st.env.failsAt st.counter = false) :
    callClosureOp t n p hl st =
      (.ok (.num (websqlInsertIntoClosureTable st.closure n.toInt p.toInt hl).2),
       { st with counter := st.counter + 1, calls := st.calls ++ [.closureQ t n p hl], closure := (websqlInsertIntoClosureTable st.closure n.toInt p.toInt hl).1 }) := by
  unfold callClosureOp
  simp [h]

theorem websql_self_row_mem (table : List ClosureRow) (n p : Int) (hl : Bool) :
    ({ ancestor := n, descendant := n, level := if hl then 1 else 0 } : ClosureRow) ∈
      (websqlInsertIntoClosureTable table n p hl).1 := by
  unfold websqlInsertIntoClosureTable
  simp

/-- C3 counterexample: on the concrete update fixture (captured date 3, clock 5) the
statement issued by the update phase carries `updated_at = date 5` — a freshly
constructed `new Date()` — while the post-commit materialization writes the captured
date 3 onto the entity's property; the two values differ, refuting the claimed
equality with the subject's captured `date`. -/
theorem update_timestamp_counterexample :
    (updateSubject c3Subject c3State).2.calls =
      [.updateQ "u3_table" [("title", .str "t"), ("updated_at", .date 5)]
        [("id", .num 9)]] ∧
    c3Subject.date = 3 ∧ c3State.env.now = 5 ∧
    getProp (materializeUpdateSubject c3State c3Subject) 1 "updatedAt" = .date 3 ∧
    (Value.date 5 ≠ Value.date 3) := by
  refine ⟨by decide, rfl, rfl, by decide, by decide⟩

/-- C3 amended: when the diffs produced a value group, the update phase writes the
update-timestamp column of the subject's own table as the driver-prepared *clock*
value (`new Date()` at statement-build time), not the subject's captured `date`;
post-commit materialization, by contrast, writes the captured `date` onto the entity's
update-timestamp property — the two agree only when the clock happens to equal the
captured date.  (Stated for subjects without a version column or parent metadata.) -/
theorem update_timestamp_from_clock (subject : Subject) (st : ExecState)
    (uc : ColumnMeta)
    (huc : subject.metadata.updateDateColumn = some uc)
    (hver : subject.metadata.versionColumn = none)
    (hpar : subject.metadata.parentEntityTarget = none)
    (vms0 : List ValueMap) :
    (∃ vm ∈ addSpecialUpdateColumns st.env st.store subject vms0,
      vm.tableName = subject.metadata.tableName ∧
      objGet vm.values uc.fullName = some (st.env.prepare (.date st.env.now) uc)) ∧
    getProp (materializeUpdateSubject st subject) subject.entityId uc.propertyName =
      .date subject.date := by
  constructor
  · unfold addSpecialUpdateColumns
    rw [huc, hver, hpar]
    exact vmSet_mem _ _ _ _ _
  · unfold materializeUpdateSubject
    rw [huc, hver]
    exact getProp_setProp_self _ _ _ _

/-- C3 witness: the amended statement instantiated on the concrete fixture. -/
theorem update_timestamp_from_clock_witness :
    getProp (materializeUpdateSubject c3State c3Subject) c3Subject.entityId
      "updatedAt" = .date 3 := by
  have h := (update_timestamp_from_clock c3Subject c3State c3UpdCol rfl rfl rfl []).2
  exact h

/-- C10 counterexample: a concrete tree subject whose entity has a parent object with
no resolvable id (the parent property is set, the referenced column is generated, no
insert subject matches the parent, and the children-collection scan finds nothing):
the closure-table insert is *not* issued — the call raises a `TypeError` (the source's
non-null assertion dereference) and the trace stays empty — refuting the claim that
the insert is still issued with parent id 0. -/
theorem closure_parent_typeerror_counterexample :
    (insertClosureTableValues [c10Subject] [c10Subject] c10Subject c10State).1 =
      .error .typeError ∧
    (insertClosureTableValues [c10Subject] [c10Subject] c10Subject c10State).2.calls
      = [] ∧
    (getProp c10State.store c10Subject.entityId "parent").truthy = true ∧
    getPropV c10State.store (.obj 2) "id" = .undefined ∧
    [c10Subject].find? (fun s => entityEq s.entity (.obj 2)) = none ∧
    closureParentScan c10State [c10Subject] c10Subject c10RefCol = .ok none := by
  refine ⟨rfl, rfl, by decide, by decide, rfl, rfl⟩

/-- C10 amended: when the tree subject's parent property is not set at all and the
children-collection scan completes without finding a parent, the closure-table insert
*is* still issued with parent id 0 and the self-referencing row is created; but the
other unresolvable-parent cases error out before any insert is issued: when the scan
itself crashes (some candidate passes its guards while the current subject's metadata
has no tree-children relation) the error propagates, and when the parent property is
set while its id is absent, the referenced column is generated and no insert subject
matches the parent entity, the source raises a `TypeError`. -/
theorem closure_parent_default_zero (allS insS : List Subject) (subject : Subject)
    (st : ExecState) (tp : RelationMeta) (jc : JoinColumnMeta)
    (htp : subject.metadata.treeParentRelation = some tp)
    (hjc : tp.joinColumn = some jc)
    (hf : ∀ k, st.env.failsAt k = false) :
    ((getProp st.store subject.entityId tp.propertyName).truthy = false →
      closureParentScan st allS subject jc.referencedColumn = .ok none →
      ∃ rest, (insertClosureTableValues allS insS subject st).2.calls =
        st.calls ++ .closureQ subject.metadata.closureJunctionTableName
          (closureNewEntityId st subject jc.referencedColumn) (.num 0)
          subject.metadata.treeLevelColumn.isSome :: rest ∧
        ({ ancestor := (closureNewEntityId st subject jc.referencedColumn).toInt, descendant := (closureNewEntityId st subject jc.referencedColumn).toInt, level := if subject.metadata.treeLevelColumn.isSome then 1 else 0 } : ClosureRow) ∈
          (insertClosureTableValues allS insS subject st).2.closure) ∧
    ((getProp st.store subject.entityId tp.propertyName).truthy = false →
      ∀ e, closureParentScan st allS subject jc.referencedColumn = .error e →
      insertClosureTableValues allS insS subject st = (.error e, st)) ∧
    ((getProp st.store subject.entityId tp.propertyName).truthy = true →
      (getPropV st.store (getProp st.store subject.entityId tp.propertyName)
        jc.referencedColumn.propertyName).truthy = false →
      jc.referencedColumn.isGenerated = true →
      insS.find? (fun s => entityEq s.entity
        (getProp st.store subject.entityId tp.propertyName)) = none →
      insertClosureTableValues allS insS subject st = (.error .typeError, st)) := by
  refine ⟨?_, ?_, ?_⟩
  · intro hp hscan
    unfold insertClosureTableValues
    rw [bind_ok (getState_apply st)]
    simp only [htp, hjc]
    have hcp : closureParentPrimary st insS jc.referencedColumn
        (getProp st.store subject.entityId tp.propertyName) = .ok (.num 0) := by
      unfold closureParentPrimary
      rw [if_neg (by simp [hp])]
    rw [hcp]
    simp only [hscan, ite_self]
    rw [bind_ok (callClosureOp_apply_ok (hf st.counter))]
    rw [bind_ok (modifyState_apply _ _)]
    cases htl : subject.metadata.treeLevelColumn with
    | some tlc =>
      simp only [htl]
      refine ⟨[.updateQ subject.metadata.tableName
        [(tlc.fullName, .num (websqlInsertIntoClosureTable st.closure (closureNewEntityId st subject jc.referencedColumn).toInt (Value.num 0).toInt true).2)]
        [(jc.referencedColumn.fullName, closureNewEntityId st subject jc.referencedColumn)]], ?_, ?_⟩
      · rw [mvoid_snd, callOp_snd]
        simp [htl, setMut, List.append_assoc]
      · rw [mvoid_snd, callOp_snd]
        have hmem := websql_self_row_mem st.closure
          (closureNewEntityId st subject jc.referencedColumn).toInt
          (Value.num 0).toInt true
        simpa [htl, setMut] using hmem
    | none =>
      simp only [htl]
      rw [pure_apply]
      refine ⟨[], ?_, ?_⟩
      · simp [htl, setMut]
      · have hmem := websql_self_row_mem st.closure
          (closureNewEntityId st subject jc.referencedColumn).toInt
          (Value.num 0).toInt false
        simpa [htl, setMut] using hmem
  · intro hp e hscanErr
    unfold insertClosureTableValues
    rw [bind_ok (getState_apply st)]
    simp only [htp, hjc]
    have hcp : closureParentPrimary st insS jc.referencedColumn
        (getProp st.store subject.entityId tp.propertyName) = .ok (.num 0) := by
      unfold closureParentPrimary
      rw [if_neg (by simp [hp])]
    rw [hcp]
    simp only [hscanErr]
    rw [if_pos (by decide : (!(Value.num 0).truthy) = true)]
    rfl
  · intro hp hpid hgen hfind
    unfold insertClosureTableValues
    rw [bind_ok (getState_apply st)]
    simp only [htp, hjc]
    have hcp : closureParentPrimary st insS jc.referencedColumn
        (getProp st.store subject.entityId tp.propertyName) = .error .typeError := by
      unfold closureParentPrimary
      rw [if_pos hp]
      rw [if_pos (by simp [hpid, hgen])]
      rw [hfind]
    rw [hcp]
    rfl

/-- C10 witness: the amended statement instantiated twice on the orphan fixture —
alone in the batch, the closure insert is issued with parent id 0 and the self row
(4, 4) is created; batched with a closure subject of a tree type that has a
tree-children relation, the scan crashes with a `TypeError` and no insert is
issued. -/
theorem closure_parent_default_zero_witness :
    (∃ rest, (insertClosureTableValues [c10OrphanSubject] [c10OrphanSubject]
        c10OrphanSubject c10OrphanState).2.calls =
      c10OrphanState.calls ++ .closureQ "tree_closure" (.num 4) (.num 0) false :: rest ∧
    ({ ancestor := 4, descendant := 4, level := 0 } : ClosureRow) ∈
      (insertClosureTableValues [c10OrphanSubject] [c10OrphanSubject]
        c10OrphanSubject c10OrphanState).2.closure) ∧
    insertClosureTableValues [c10OrphanSubject, c10ScanSubject] [c10OrphanSubject]
      c10OrphanSubject c10OrphanState = (.error .typeError, c10OrphanState) := by
  have h1 := (closure_parent_default_zero [c10OrphanSubject] [c10OrphanSubject]
    c10OrphanSubject c10OrphanState c10ParentRel { referencedColumn := c10RefCol }
    rfl rfl (fun k => rfl)).1 (by decide) rfl
  have h2 := (closure_parent_default_zero [c10OrphanSubject, c10ScanSubject]
    [c10OrphanSubject] c10OrphanSubject c10OrphanState c10ParentRel
    { referencedColumn := c10RefCol } rfl rfl (fun k => rfl)).2.1 (by decide)
    .typeError rfl
  exact ⟨h1, h2⟩

theorem junction_loop_ok (insS : List Subject) (relation : RelationMeta)
    (jm : JunctionMeta) (secondColumn : ColumnMeta) (ownId : Value) (l : List Nat) :
    ∀ st : ExecState, (∀ k, st.env.failsAt k = false) →
      (∀ e ∈ l, (junctionRelationId st.store st.muts insS relation secondColumn e).truthy
        = true) →
      (mforM l (insertJunctionRow insS relation jm secondColumn ownId) st).1 = .ok () ∧
      (mforM l (insertJunctionRow insS relation jm secondColumn ownId) st).2.calls =
        st.calls ++ l.map (fun e => .insertQ jm.tableName
          ((jm.columns.map (fun c => c.fullName)).zip
            (if relation.isOwning then
              [ownId, junctionRelationId st.store st.muts insS relation secondColumn e]
             else
              [junctionRelationId st.store st.muts insS relation secondColumn e,
               ownId]))) := by
  induction l with
  | nil =>
    intro st hf hall
    exact ⟨rfl, (List.append_nil st.calls).symm⟩
  | cons e es ih =>
    intro st hf hall
    have hhead := hall e (by simp)
    rw [mforM_cons]
    have hbody : insertJunctionRow insS relation jm secondColumn ownId e st =
        (.ok (), { st with counter := st.counter + 1, calls := st.calls ++ [.insertQ jm.tableName ((jm.columns.map (fun c => c.fullName)).zip (if relation.isOwning then [ownId, junctionRelationId st.store st.muts insS relation secondColumn e] else [junctionRelationId st.store st.muts insS relation secondColumn e, ownId]))] }) := by
      unfold insertJunctionRow
      rw [bind_ok (getState_apply st)]
      rw [if_neg (by simp [hhead])]
      rw [mvoid_ok (callOp_apply_ok (hf st.counter))]
    rw [bind_ok hbody]
    have h2 := ih { st with counter := st.counter + 1, calls := st.calls ++ [Op.insertQ jm.tableName ((jm.columns.map (fun c => c.fullName)).zip (if relation.isOwning then [ownId, junctionRelationId st.store st.muts insS relation secondColumn e] else [junctionRelationId st.store st.muts insS relation secondColumn e, ownId]))] }
      hf (fun x hx => hall x (by simp [hx]))
    refine ⟨h2.1, ?_⟩
    rw [h2.2]
    simp [List.append_assoc]

theorem junction_loop_err (insS : List Subject) (relation : RelationMeta)
    (jm : JunctionMeta) (secondColumn : ColumnMeta) (ownId : Value) (l : List Nat) :
    ∀ st : ExecState, (∀ k, st.env.failsAt k = false) →
      (∃ e ∈ l, (junctionRelationId st.store st.muts insS relation secondColumn e).truthy
        = false) →
      ∃ e', (mforM l (insertJunctionRow insS relation jm secondColumn ownId) st).1 =
        .error (.cascadeEntity e') := by
  induction l with
  | nil =>
    rintro st hf ⟨e, he, _⟩
    exact absurd he (List.not_mem_nil e)
  | cons e es ih =>
    rintro st hf ⟨e0, he0, hbad⟩
    by_cases hhead : (junctionRelationId st.store st.muts insS relation secondColumn
        e).truthy = true
    · have hbody : insertJunctionRow insS relation jm secondColumn ownId e st =
          (.ok (), { st with counter := st.counter + 1, calls := st.calls ++ [.insertQ jm.tableName ((jm.columns.map (fun c => c.fullName)).zip (if relation.isOwning then [ownId, junctionRelationId st.store st.muts insS relation secondColumn e] else [junctionRelationId st.store st.muts insS relation secondColumn e, ownId]))] }) := by
        unfold insertJunctionRow
        rw [bind_ok (getState_apply st)]
        rw [if_neg (by simp [hhead])]
        rw [mvoid_ok (callOp_apply_ok (hf st.counter))]
      have he0es : e0 ∈ es := by
        rcases List.mem_cons.mp he0 with rfl | h
        · rw [hhead] at hbad
          exact absurd hbad (by simp)
        · exact h
      rw [mforM_cons, bind_ok hbody]
      exact ih { st with counter := st.counter + 1, calls := st.calls ++ [Op.insertQ jm.tableName ((jm.columns.map (fun c => c.fullName)).zip (if relation.isOwning then [ownId, junctionRelationId st.store st.muts insS relation secondColumn e] else [junctionRelationId st.store st.muts insS relation secondColumn e, ownId]))] }
        hf ⟨e0, he0es, hbad⟩
    · have hbad' : (junctionRelationId st.store st.muts insS relation secondColumn
          e).truthy = false := by simpa using hhead
      have hbody : insertJunctionRow insS relation jm secondColumn ownId e st =
          (.error (.cascadeEntity e), st) := by
        unfold insertJunctionRow
        rw [bind_ok (getState_apply st)]
        rw [if_pos (by simp [hbad'])]
        rfl
      rw [mforM_cons, bind_err hbody]
      exact ⟨e, rfl⟩

/-- C7: For a pending many-to-many junction insert (with a join table and junction
metadata), when the own id cannot be resolved from the entity's own relation-id
accessor or the insert phase's generated values, the whole operation throws; when the
own id resolves and every bound entity's related id resolves, exactly one junction row
is inserted per bound entity, with the value pair ordered (ownId, relatedId) on the
owning side and (relatedId, ownId) otherwise; and when some bound entity's related id
cannot be resolved, the operation throws the cascade error. -/
theorem insertJunctions_rows (insS : List Subject) (subject : Subject)
    (ji : JunctionInsert) (st : ExecState) (jt : JoinTableMeta) (jm : JunctionMeta)
    (hjt : (if ji.relation.isOwning then ji.relation.joinTable
            else ji.relation.inverseRelation.bind (fun inv => inv.joinTable)) = some jt)
    (hjm : ji.relation.junctionMeta = some jm)
    (hf : ∀ k, st.env.failsAt k = false) :
    ((junctionOwnId st.store st.muts subject ji.relation
        (if ji.relation.isOwning then jt.referencedColumn
         else jt.inverseReferencedColumn)).truthy = false →
      insertJunctions insS subject ji st =
        (.error (.cascadeOwn subject.metadata.target), st)) ∧
    ((junctionOwnId st.store st.muts subject ji.relation
        (if ji.relation.isOwning then jt.referencedColumn
         else jt.inverseReferencedColumn)).truthy = true →
      (∀ e ∈ ji.junctionEntities, (junctionRelationId st.store st.muts insS ji.relation
        (if ji.relation.isOwning then jt.inverseReferencedColumn
         else jt.referencedColumn) e).truthy = true) →
      (insertJunctions insS subject ji st).1 = .ok () ∧
      (insertJunctions insS subject ji st).2.calls =
        st.calls ++ ji.junctionEntities.map (fun e => .insertQ jm.tableName
          ((jm.columns.map (fun c => c.fullName)).zip
            (if ji.relation.isOwning then
              [junctionOwnId st.store st.muts subject ji.relation
                (if ji.relation.isOwning then jt.referencedColumn
                 else jt.inverseReferencedColumn),
               junctionRelationId st.store st.muts insS ji.relation
                (if ji.relation.isOwning then jt.inverseReferencedColumn
                 else jt.referencedColumn) e]
             else
              [junctionRelationId st.store st.muts insS ji.relation
                (if ji.relation.isOwning then jt.inverseReferencedColumn
                 else jt.referencedColumn) e,
               junctionOwnId st.store st.muts subject ji.relation
                (if ji.relation.isOwning then jt.referencedColumn
                 else jt.inverseReferencedColumn)])))) ∧
    ((junctionOwnId st.store st.muts subject ji.relation
        (if ji.relation.isOwning then jt.referencedColumn
         else jt.inverseReferencedColumn)).truthy = true →
      (∃ e ∈ ji.junctionEntities, (junctionRelationId st.store st.muts insS ji.relation
        (if ji.relation.isOwning then jt.inverseReferencedColumn
         else jt.referencedColumn) e).truthy = false) →
      ∃ e', (insertJunctions insS subject ji st).1 = .error (.cascadeEntity e')) := by
  refine ⟨?_, ?_, ?_⟩
  · intro hown
    unfold insertJunctions
    rw [bind_ok (getState_apply st)]
    simp only [hjt]
    rw [if_pos (by simp [hown])]
    rfl
  · intro hown hall
    unfold insertJunctions
    rw [bind_ok (getState_apply st)]
    simp only [hjt]
    rw [if_neg (by simp [hown])]
    simp only [hjm]
    exact junction_loop_ok insS ji.relation jm _ _ ji.junctionEntities st hf hall
  · intro hown hbad
    unfold insertJunctions
    rw [bind_ok (getState_apply st)]
    simp only [hjt]
    rw [if_neg (by simp [hown])]
    simp only [hjm]
    exact junction_loop_err insS ji.relation jm _ _ ji.junctionEntities st hf hbad

/-- C7 witness: on the concrete fixture (own id 7, related id 9, owning side) exactly
one junction row is inserted with the pair ordered (ownId, relatedId). -/
theorem insertJunctions_rows_witness :
    (insertJunctions [] c7Subject c7JunctionInsert c7State).2.calls =
      [.insertQ "post_categories" [("post_id", .num 7), ("category_id", .num 9)]] := by
  have h := ((insertJunctions_rows [] c7Subject c7JunctionInsert c7State c7JoinTable
    c7JunctionMeta rfl rfl (fun k => rfl)).2.1 (by decide)
    (fun e he => by
      rcases List.mem_singleton.mp he with rfl
      decide)).2
  rw [h]
  rfl

theorem listMaxOpt_go (l : List Int) (a : Int) :
    l.foldl (fun acc x =>
      match acc with
      | none => some x
      | some m => some (max m x)) (some a) = some (l.foldl max a) := by
  induction l generalizing a with
  | nil => rfl
  | cons x xs ih => simpa using ih (max a x)

theorem foldl_max_ge_init (l : List Int) (a : Int) : a ≤ l.foldl max a := by
  induction l generalizing a with
  | nil => exact le_refl a
  | cons x xs ih =>
    rw [List.foldl_cons]
    exact le_trans (le_max_left a x) (ih (max a x))

theorem foldl_max_ge_mem (l : List Int) (a x : Int) : x ∈ l → x ≤ l.foldl max a := by
  induction l generalizing a with
  | nil =>
    intro h
    exact absurd h (List.not_mem_nil x)
  | cons y ys ih =>
    intro h
    rw [List.foldl_cons]
    rcases List.mem_cons.mp h with rfl | h'
    · exact le_trans (le_max_right a x) (foldl_max_ge_init ys (max a x))
    · exact ih (max a y) h' 

theorem foldl_max_cases (l : List Int) (a : Int) :
    l.foldl max a = a ∨ l.foldl max a ∈ l := by
  induction l generalizing a with
  | nil => exact Or.inl rfl
  | cons x xs ih =>
    rw [List.foldl_cons]
    rcases ih (max a x) with h | h
    · rw [h]
      rcases max_choice a x with h' | h'
      · exact Or.inl h'
      · refine Or.inr ?_
        rw [h']
        exact List.mem_cons_self x xs
    · exact Or.inr (List.mem_cons_of_mem x h)

theorem listMaxOpt_eq_some_of (l : List Int) (m : Int) (hm : m ∈ l)
    (hb : ∀ x ∈ l, x ≤ m) : listMaxOpt l = some m := by
  cases l with
  | nil => exact absurd hm (List.not_mem_nil m)
  | cons x xs =>
    unfold listMaxOpt
    rw [List.foldl_cons]
    show xs.foldl (fun acc x =>
      match acc with
      | none => some x
      | some m => some (max m x)) (some x) = some m
    rw [listMaxOpt_go]
    congr 1
    have hge : m ≤ xs.foldl max x := by
      rcases List.mem_cons.mp hm with rfl | h'
      · exact foldl_max_ge_init xs m
      · exact foldl_max_ge_mem xs x m h'
    have hle : xs.foldl max x ≤ m := by
      rcases foldl_max_cases xs x with h | h
      · rw [h]
        exact hb x (List.mem_cons_self x xs)
      · exact hb _ (List.mem_cons_of_mem x h)
    exact le_antisymm hle hge

theorem websql_snd (table : List ClosureRow) (c p : Int) (hl : Bool) :
    (websqlInsertIntoClosureTable table c p hl).2 =
      match listMaxOpt (closureLevels (websqlInsertIntoClosureTable table c p hl).1 p) with
      | none => (1 : Int)
      | some m => if m == 0 then 1 else m + 1 := rfl

theorem closureLevels_websql_p (table : List ClosureRow) (c p : Int) (hcp : c ≠ p) :
    closureLevels (websqlInsertIntoClosureTable table c p true).1 p =
      closureLevels table p := by
  unfold websqlInsertIntoClosureTable closureLevels
  rw [List.filter_append, List.filter_append]
  have h1 : (((table.filter (fun r => r.descendant == p)).map
      (fun r => { ancestor := r.ancestor, descendant := c, level := if true then r.level + 1 else r.level : ClosureRow })).filter
      (fun r => r.descendant == p)) = [] := by
    rw [List.filter_eq_nil_iff]
    intro r hr
    rcases List.mem_map.mp hr with ⟨r0, _, rfl⟩
    simp [hcp]
  have h2 : ([({ ancestor := c, descendant := c, level := if true then 1 else 0 } : ClosureRow)].filter
      (fun r => r.descendant == p)) = [] := by
    rw [List.filter_eq_nil_iff]
    intro r hr
    rcases List.mem_singleton.mp hr with rfl
    simp [hcp]
  rw [h1, h2]
  simp

theorem closureLevels_websql_c (table : List ClosureRow) (c p : Int)
    (hnone : closureLevels table c = []) :
    closureLevels (websqlInsertIntoClosureTable table c p true).1 c =
      (closureLevels table p).map (fun x => x + 1) ++ [1] := by
  have hfilnil : table.filter (fun r => r.descendant == c) = [] := by
    have h := hnone
    unfold closureLevels at h
    exact List.map_eq_nil_iff.mp h
  unfold websqlInsertIntoClosureTable closureLevels
  rw [List.filter_append, List.filter_append]
  have h1 : (((table.filter (fun r => r.descendant == p)).map
      (fun r => { ancestor := r.ancestor, descendant := c, level := if true then r.level + 1 else r.level : ClosureRow })).filter
      (fun r => r.descendant == c)) =
      ((table.filter (fun r => r.descendant == p)).map
      (fun r => { ancestor := r.ancestor, descendant := c, level := if true then r.level + 1 else r.level : ClosureRow })) := by
    rw [List.filter_eq_self]
    intro r hr
    rcases List.mem_map.mp hr with ⟨r0, _, rfl⟩
    simp
  have h2 : ([({ ancestor := c, descendant := c, level := if true then 1 else 0 } : ClosureRow)].filter
      (fun r => r.descendant == c)) =
      [({ ancestor := c, descendant := c, level := if true then 1 else 0 } : ClosureRow)] := by
    rw [List.filter_eq_self]
    intro r hr
    rcases List.mem_singleton.mp hr with rfl
    simp
  rw [h1, h2, hfilnil]
  simp [List.map_map]

theorem websql_level_result (table : List ClosureRow) (c p : Int) (hcp : c ≠ p)
    (Lp : Int) (hmem : Lp ∈ closureLevels table p)
    (hbound : ∀ x ∈ closureLevels table p, x ≤ Lp) (hpos : 1 ≤ Lp) :
    (websqlInsertIntoClosureTable table c p true).2 = Lp + 1 := by
  have hmax : listMaxOpt
      (closureLevels (websqlInsertIntoClosureTable table c p true).1 p) = some Lp := by
    rw [closureLevels_websql_p table c p hcp]
    exact listMaxOpt_eq_some_of _ _ hmem hbound
  rw [websql_snd, hmax]
  have h0 : (Lp == 0) = false := by
    simp only [beq_eq_false_iff_ne]
    omega
  simp [h0]

/-- C4: For a tree (closure-table) entity with levels tracked whose parent is already
persisted (its closure rows with descendant p have maximum level Lp ≥ 1) and whose new
child's id c resolves (c ≠ 0, no pre-existing closure rows for c, c ≠ p): the closure
statement appends a copy of every closure row with descendant p — descendant rewritten
to c, level incremented by one — plus the self-referencing row (c, c, 1); the level
recorded on the subject is Lp + 1 (the parent's level plus one); the child's own
tree-level column is then written by a separate update keyed by the child's referenced
column carrying exactly the level returned by the closure insert; and the maximum
level among c's closure rows is Lp + 1. -/
theorem insertClosureTableValues_spec (allS insS : List Subject) (subject : Subject)
    (st : ExecState) (tp : RelationMeta) (jc : JoinColumnMeta) (tlc : ColumnMeta)
    (pe : Nat) (c p Lp : Int)
    (htp : subject.metadata.treeParentRelation = some tp)
    (hjc : tp.joinColumn = some jc)
    (htl : subject.metadata.treeLevelColumn = some tlc)
    (hcid : closureNewEntityId st subject jc.referencedColumn = .num c)
    (hparent : getProp st.store subject.entityId tp.propertyName = .obj pe)
    (hpid : getProp st.store pe jc.referencedColumn.propertyName = .num p)
    (hp0 : p ≠ 0)
    (hcp : c ≠ p)
    (hLmem : Lp ∈ closureLevels st.closure p)
    (hLbound : ∀ x ∈ closureLevels st.closure p, x ≤ Lp)
    (hL1 : 1 ≤ Lp)
    (hcnone : closureLevels st.closure c = [])
    (hf : ∀ k, st.env.failsAt k = false) :
    (insertClosureTableValues allS insS subject st).1 = .ok () ∧
    ((insertClosureTableValues allS insS subject st).2.muts subject.sid).treeLevel =
      .num (Lp + 1) ∧
    (insertClosureTableValues allS insS subject st).2.calls = st.calls ++
      [.closureQ subject.metadata.closureJunctionTableName (.num c) (.num p) true,
       .updateQ subject.metadata.tableName [(tlc.fullName, .num (Lp + 1))]
         [(jc.referencedColumn.fullName, .num c)]] ∧
    (insertClosureTableValues allS insS subject st).2.closure =
      st.closure ++ (st.closure.filter (fun r => r.descendant == p)).map
        (fun r => { ancestor := r.ancestor, descendant := c, level := r.level + 1 : ClosureRow }) ++
      [{ ancestor := c, descendant := c, level := 1 }] ∧
    ((Lp + 1) ∈ closureLevels (insertClosureTableValues allS insS subject st).2.closure c ∧
     ∀ x ∈ closureLevels (insertClosureTableValues allS insS subject st).2.closure c,
       x ≤ Lp + 1) := by
  have hptruthy : (Value.num p).truthy = true := by
    simp only [Value.truthy, bne_iff_ne, ne_eq, decide_eq_true_eq]
    exact hp0
  have hcpp : closureParentPrimary st insS jc.referencedColumn
      (getProp st.store subject.entityId tp.propertyName) = .ok (.num p) := by
    unfold closureParentPrimary
    rw [hparent]
    rw [if_pos (show (Value.obj pe).truthy = true from rfl)]
    simp only [getPropV, hpid, hptruthy, Bool.not_true, Bool.false_and,
      Bool.false_eq_true, if_false]
  have hrun : insertClosureTableValues allS insS subject st =
      ((do
        modifyState (fun st2 => setMut st2 subject.sid
          (fun m => { m with treeLevel := Value.num (websqlInsertIntoClosureTable st.closure c p true).2 }))
        mvoid (callOp (.updateQ subject.metadata.tableName
          [(tlc.fullName, Value.num (websqlInsertIntoClosureTable st.closure c p true).2)]
          [(jc.referencedColumn.fullName, Value.num c)]) ) : M Unit)
        { st with counter := st.counter + 1, calls := st.calls ++ [.closureQ subject.metadata.closureJunctionTableName (.num c) (.num p) true], closure := (websqlInsertIntoClosureTable st.closure c p true).1 }) := by
    unfold insertClosureTableValues
    rw [bind_ok (getState_apply st)]
    simp only [htp, hjc]
    rw [hcpp]
    simp only [hptruthy, Bool.not_true, Bool.false_eq_true, if_false]
    rw [hcid]
    simp only [htl, Option.isSome_some]
    rw [bind_ok (callClosureOp_apply_ok (hf st.counter))]
    simp only [Value.toInt]
  have hlevel : (websqlInsertIntoClosureTable st.closure c p true).2 = Lp + 1 :=
    websql_level_result st.closure c p hcp Lp hLmem hLbound hL1
  have hrest : insertClosureTableValues allS insS subject st =
      (.ok (), { st with counter := st.counter + 1 + 1, calls := (st.calls ++ [.closureQ subject.metadata.closureJunctionTableName (.num c) (.num p) true]) ++ [.updateQ subject.metadata.tableName [(tlc.fullName, .num (Lp + 1))] [(jc.referencedColumn.fullName, .num c)]], closure := (websqlInsertIntoClosureTable st.closure c p true).1, muts := fun i => if i == subject.sid then { (st.muts i) with treeLevel := Value.num (Lp + 1) } else st.muts i }) := by
    rw [hrun, hlevel]
    rw [bind_ok (modifyState_apply _ _)]
    exact mvoid_ok (@callOp_apply_ok
      (.updateQ subject.metadata.tableName [(tlc.fullName, .num (Lp + 1))] [(jc.referencedColumn.fullName, .num c)])
      (setMut { st with counter := st.counter + 1, calls := st.calls ++ [.closureQ subject.metadata.closureJunctionTableName (.num c) (.num p) true], closure := (websqlInsertIntoClosureTable st.closure c p true).1 } subject.sid (fun m => { m with treeLevel := Value.num (Lp + 1) }))
      (hf (st.counter + 1)))
  have hclo : (websqlInsertIntoClosureTable st.closure c p true).1 =
      st.closure ++ (st.closure.filter (fun r => r.descendant == p)).map
        (fun r => { ancestor := r.ancestor, descendant := c, level := r.level + 1 : ClosureRow }) ++
      [{ ancestor := c, descendant := c, level := 1 }] := by
    unfold websqlInsertIntoClosureTable
    simp
  have hlevC := closureLevels_websql_c st.closure c p hcnone
  have hcloeq : closureLevels (insertClosureTableValues allS insS subject st).2.closure c =
      (closureLevels st.closure p).map (fun x => x + 1) ++ [1] := by
    rw [hrest]
    exact hlevC
  refine ⟨?_, ?_, ?_, ?_, ?_, ?_⟩
  · rw [hrest]
  · rw [hrest]
    simp
  · rw [hrest]
    exact List.append_assoc _ _ _
  · rw [hrest]
    exact hclo
  · rw [hcloeq]
    refine List.mem_append.mpr (Or.inl ?_)
    exact List.mem_map.mpr ⟨Lp, hLmem, rfl⟩
  · intro x hx
    rw [hcloeq] at hx
    rcases List.mem_append.mp hx with h | h
    · rcases List.mem_map.mp h with ⟨y, hy, rfl⟩
      have := hLbound y hy
      omega
    · rcases List.mem_singleton.mp h with rfl
      omega

theorem insertClosureTableValues_spec_witness :
    (insertClosureTableValues [c4Subject] [c4Subject] c4Subject c4State).1 = .ok () ∧
    ((insertClosureTableValues [c4Subject] [c4Subject] c4Subject c4State).2.muts c4Subject.sid).treeLevel = .num 2 ∧
    (insertClosureTableValues [c4Subject] [c4Subject] c4Subject c4State).2.calls = c4State.calls ++
      [.closureQ "tree_closure" (.num 2) (.num 1) true,
       .updateQ "tree" [("level", .num 2)] [("id", .num 2)]] ∧
    (insertClosureTableValues [c4Subject] [c4Subject] c4Subject c4State).2.closure =
      c4State.closure ++ (c4State.closure.filter (fun r => r.descendant == (1 : Int))).map
        (fun r => { ancestor := r.ancestor, descendant := 2, level := r.level + 1 : ClosureRow }) ++
      [{ ancestor := 2, descendant := 2, level := 1 }] ∧
    ((2 : Int) ∈ closureLevels (insertClosureTableValues [c4Subject] [c4Subject] c4Subject c4State).2.closure 2 ∧
     ∀ x ∈ closureLevels (insertClosureTableValues [c4Subject] [c4Subject] c4Subject c4State).2.closure 2,
       x ≤ 2) :=
  insertClosureTableValues_spec [c4Subject] [c4Subject] c4Subject c4State c10ParentRel
    { referencedColumn := c10RefCol } c4TreeLevelCol 2 2 1 1 rfl rfl rfl rfl rfl rfl
    (by decide) (by decide) (by decide) (by decide) (by decide) (by decide) (fun _ => rfl)

theorem execute_rollback_iff_owner_witness :
    cErrState.calls = [] ∧
    (execute [cErrSubject] cErrState).1 = .error (.queryFailed 3) ∧
    (((Op.rollbackTransaction ∈ (execute [cErrSubject] cErrState).2.calls) ↔
      (Op.beginTransaction ∈ (execute [cErrSubject] cErrState).2.calls)) ∧
     (cErrState.env.transactionActive = true →
       Op.commitTransaction ∉ (execute [cErrSubject] cErrState).2.calls ∧
       Op.rollbackTransaction ∉ (execute [cErrSubject] cErrState).2.calls ∧
       Op.beginTransaction ∉ (execute [cErrSubject] cErrState).2.calls) ∧
     (Op.beginTransaction ∈ (execute [cErrSubject] cErrState).2.calls →
       (executeGuarded [cErrSubject]
         ([cErrSubject].filter (fun subject => subject.mustBeInserted))
         ([cErrSubject].filter (fun subject => subject.mustBeUpdated))
         ([cErrSubject].filter (fun subject => subject.mustBeRemoved))
         ([cErrSubject].filter (fun subject => subject.hasRelationUpdates))
         { cErrState with txnOwner := false }).1 = .error (.queryFailed 3))) :=
  ⟨rfl, rfl, execute_rollback_iff_owner [cErrSubject] cErrState (.queryFailed 3) rfl rfl⟩

theorem execute_error_leaves_entities_untouched_witness :
    cErrState.calls = [] ∧
    (execute [cErrSubject] cErrState).1 = .error (.queryFailed 3) ∧
    Op.broadcastAfterAll ∉ (execute [cErrSubject] cErrState).2.calls ∧
    (execute [cErrSubject] cErrState).2.store = cErrState.store :=
  ⟨rfl, rfl, by decide,
    execute_error_leaves_entities_untouched [cErrSubject] cErrState (.queryFailed 3)
      rfl rfl (by decide)⟩

end Typeorm

